import Mathlib

/- Verification of the serialization utilities (src/raiden/utils/serialization.py)
   and of the test factories (src/raiden/tests/utils/factories.py) of the raiden
   repository, over a shallow embedding in Lean.

   Conventions used throughout:
   * byte strings are lists of naturals below 256 (predicate IsBytes);
   * Python exceptions (assert failures, AttributeError, TypeError) are
     modelled with Option / Except;
   * external collaborators that are not part of this repository (keccak,
     signing, random draws) are parameters of the embedded functions, so that
     the theorems hold for every choice of those collaborators;
   * recursive Python functions whose recursion is not structural are embedded
     with an explicit fuel argument; running out of fuel is an error value that
     the theorems show is never reached for sufficient fuel. -/

/-! ## Byte strings and hex encoding (eth_utils: to_hex, to_bytes) -/

/-- A list of naturals is a byte string when every entry is below 256. -/
def IsBytes (l : List Nat) : Prop := ∀ b ∈ l, b < 256

instance : DecidablePred IsBytes := fun l => by unfold IsBytes; infer_instance

/-- Lowercase hex digit for a value below 16. -/
def hexDigitChar (n : Nat) : Char :=
  if n < 10 then Char.ofNat (48 + n) else Char.ofNat (87 + n)

/-- The two hex digits of one byte. -/
def byteHexChars (b : Nat) : List Char := [hexDigitChar (b / 16), hexDigitChar (b % 16)]

/-- Hex digits of a byte string, two characters per byte. -/
def bytesToHex : List Nat → List Char
  | [] => []
  | b :: bs => byteHexChars b ++ bytesToHex bs

/-- eth_utils to_hex: the 0x-prefixed lowercase hex representation of a byte string. -/
def to_hex (b : List Nat) : String := String.mk ('0' :: 'x' :: bytesToHex b)

/-- Value of one hex digit character, upper or lower case. -/
def hexCharVal (c : Char) : Option Nat :=
  let n := c.toNat
  if 48 ≤ n ∧ n ≤ 57 then some (n - 48)
  else if 97 ≤ n ∧ n ≤ 102 then some (n - 87)
  else if 65 ≤ n ∧ n ≤ 70 then some (n - 55)
  else none

/-- Decode a list of hex digit characters, two at a time, into bytes. -/
def hexPairsToBytes : List Char → Option (List Nat)
  | [] => some []
  | c1 :: c2 :: rest => do
      let h ← hexCharVal c1
      let l ← hexCharVal c2
      let bs ← hexPairsToBytes rest
      pure ((h * 16 + l) :: bs)
  | _ => none

/-- Strip a leading 0x mark if present. -/
def dropHexMark : List Char → List Char
  | '0' :: 'x' :: rest => rest
  | l => l

/-- Character-list core of eth_utils to_bytes with the hexstr keyword: strip an
optional 0x mark, left-pad odd-length input with one zero digit, decode. -/
def to_bytes_chars (cs : List Char) : Option (List Nat) :=
  hexPairsToBytes
    (if (dropHexMark cs).length % 2 = 1 then '0' :: dropHexMark cs else dropHexMark cs)

/-- eth_utils to_bytes applied to a hexadecimal string. -/
def to_bytes_hexstr (s : String) : Option (List Nat) := to_bytes_chars s.data

/-- serialize_bytes from src/raiden/utils/serialization.py: hex-encode a byte string. -/
def serialize_bytes (data : List Nat) : String := to_hex data

/-- deserialize_bytes from src/raiden/utils/serialization.py: decode a hex string. -/
def deserialize_bytes (data : String) : Option (List Nat) := to_bytes_chars data.data

/-! ## Participant addresses (eth_utils checksum addresses) -/

/-- Uppercase an ASCII lowercase letter, leave other characters alone. -/
def toUpperHexChar (c : Char) : Char :=
  if 97 ≤ c.toNat ∧ c.toNat ≤ 122 then Char.ofNat (c.toNat - 32) else c

/-- Lowercase an ASCII uppercase letter, leave other characters alone. -/
def toLowerCharM (c : Char) : Char :=
  if 65 ≤ c.toNat ∧ c.toNat ≤ 90 then Char.ofNat (c.toNat + 32) else c

/-- Apply the EIP-55 capitalization mask position-wise to the hex characters. -/
def applyChecksumCaps (mask : Nat → Bool) : Nat → List Char → List Char
  | _, [] => []
  | i, c :: cs => (if mask i then toUpperHexChar c else c) :: applyChecksumCaps mask (i + 1) cs

/-- eth_utils to_checksum_address. EIP-55 capitalizes the hex letters selected
by a keccak-derived mask over the lowercase hex address; keccak is an external
collaborator of this repository, so the mask is a parameter here and the
theorems below hold for every mask. -/
def to_checksum_address (mask : Nat → Bool) (addr : List Nat) : String :=
  String.mk ('0' :: 'x' :: applyChecksumCaps mask 0 (bytesToHex addr))

/-- eth_utils to_canonical_address: lowercase the address string, decode it to bytes. -/
def to_canonical_address (s : String) : Option (List Nat) :=
  to_bytes_chars (s.data.map toLowerCharM)

/-- serialize_participants_tuple from src/raiden/utils/serialization.py:
the two-element list of checksummed address strings. -/
def serialize_participants_tuple (mask : Nat → Bool) (participants : List Nat × List Nat) :
    List String :=
  [to_checksum_address mask participants.1, to_checksum_address mask participants.2]

/-- deserialize_participants_tuple from src/raiden/utils/serialization.py; the
assert on the length of the input list is modelled as a distinguished error. -/
def deserialize_participants_tuple (data : List String) :
    Except String (List Nat × List Nat) :=
  match data with
  | [a, b] =>
    match to_canonical_address a, to_canonical_address b with
    | some ca, some cb => .ok (ca, cb)
    | _, _ => .error "invalid address hex"
  | _ => .error "assert len(data) == 2"

/-! ## Merkle lock tree layers (claim C3) -/

/-- Lexicographic order on byte strings, as Python compares bytes. -/
def lexLeB : List Nat → List Nat → Bool
  | [], _ => true
  | _ :: _, [] => false
  | a :: xs, b :: ys => if a < b then true else if a = b then lexLeB xs ys else false

/-- Insert into a lexicographically sorted list of byte strings. -/
def orderedInsertB (x : List Nat) : List (List Nat) → List (List Nat)
  | [] => [x]
  | y :: ys => if lexLeB x y then x :: y :: ys else y :: orderedInsertB x ys

/-- Insertion sort of byte strings (Python sorted on bytes). -/
def sortLeaves : List (List Nat) → List (List Nat)
  | [] => []
  | x :: xs => orderedInsertB x (sortLeaves xs)

/-- Sortedness for the lexicographic order above. -/
def isSortedB : List (List Nat) → Prop
  | [] => True
  | [_] => True
  | a :: b :: rest => lexLeB a b = true ∧ isSortedB (b :: rest)

/-- One pairwise-hash step: adjacent nodes are hashed together, an odd trailing
node is carried to the next layer unchanged. -/
def combineLayer (hashPair : List Nat → List Nat → List Nat) :
    List (List Nat) → List (List Nat)
  | a :: b :: rest => hashPair a b :: combineLayer hashPair rest
  | l => l

/-- Build the list of layers from the leaves layer upwards; the fuel bounds the
number of combining steps and is instantiated with the number of leaves, which
always suffices since every step at least halves the layer width. -/
def buildLayers (hashPair : List Nat → List Nat → List Nat) :
    Nat → List (List Nat) → List (List (List Nat))
  | 0, layer => [layer]
  | fuel + 1, layer =>
    if layer.length ≤ 1 then [layer]
    else layer :: buildLayers hashPair fuel (combineLayer hashPair layer)

/-- Modelled from the spec: compute_layers of raiden/transfer/merkle_tree.py is
not under src/. Per the spec, construction canonicalizes by sorting the leaves,
then pairwise-hashes up each layer to a single root, with an unpaired node
carried to the next layer unchanged; the pair hash (keccak, an external
collaborator) is a parameter. -/
def compute_layers (hashPair : List Nat → List Nat → List Nat)
    (elements : List (List Nat)) : List (List (List Nat)) :=
  buildLayers hashPair elements.length (sortLeaves elements)

/-- Index of the leaves layer (LEAVES constant of raiden/transfer/merkle_tree.py). -/
def LEAVES : Nat := 0

/-- map_list from src/raiden/utils/serialization.py. -/
def map_list (f : α → β) (l : List α) : List β := l.map f

/-- map_list over a fallible value function (deserialize_bytes can fail). -/
def mapListOption (f : α → Option β) (l : List α) : Option (List β) :=
  match l with
  | [] => some []
  | x :: xs => (f x).bind fun y => (mapListOption f xs).map fun ys => y :: ys

/-- serialize_merkletree_layers from src/raiden/utils/serialization.py:
hex-encode the leaves layer data[LEAVES]; indexing an empty list of layers is
an IndexError. -/
def serialize_merkletree_layers (data : List (List (List Nat))) :
    Except String (List String) :=
  match data.get? LEAVES with
  | some l0 => .ok (map_list serialize_bytes l0)
  | none => .error "IndexError"

/-- deserialize_merkletree_layers from src/raiden/utils/serialization.py:
decode the stored leaves and recompute all layers. -/
def deserialize_merkletree_layers (hashPair : List Nat → List Nat → List Nat)
    (data : List String) : Option (List (List (List Nat))) :=
  (mapListOption deserialize_bytes data).map (compute_layers hashPair)

/-! ## networkx graphs (claim C8) -/

/-- A networkx Graph: an insertion-ordered node list and an edge list; an
undirected edge is stored once, in the orientation it was first added. -/
structure NXGraph where
  nodes : List Nat
  edges : List (Nat × Nat)

/-- The empty graph. -/
def NXGraph.empty : NXGraph := ⟨[], []⟩

/-- networkx add_node: appends the node unless already present. -/
def addNode (g : NXGraph) (u : Nat) : NXGraph :=
  if u ∈ g.nodes then g else ⟨g.nodes ++ [u], g.edges⟩

/-- Undirected edge membership. -/
def hasEdge (g : NXGraph) (u v : Nat) : Prop := (u, v) ∈ g.edges ∨ (v, u) ∈ g.edges

/-- networkx add_edge: adds both endpoints, then the edge unless already present. -/
def addEdge (g : NXGraph) (u v : Nat) : NXGraph :=
  if (u, v) ∈ (addNode (addNode g u) v).edges ∨ (v, u) ∈ (addNode (addNode g u) v).edges
  then addNode (addNode g u) v
  else ⟨(addNode (addNode g u) v).nodes, (addNode (addNode g u) v).edges ++ [(u, v)]⟩

/-- networkx Graph(edge_list): fold the edges into the empty graph. -/
def graphFromEdges (es : List (Nat × Nat)) : NXGraph :=
  es.foldl (fun g e => addEdge g e.1 e.2) NXGraph.empty

/-- serialize_networkx_graph from src/raiden/utils/serialization.py: the list of
edges of the graph (the json.dumps string layer is bypassed; this list is the
parsed form of the dumped JSON). -/
def serialize_networkx_graph (g : NXGraph) : List (Nat × Nat) := g.edges

/-- deserialize_networkx_graph from src/raiden/utils/serialization.py:
networkx.Graph applied to the decoded edge list. -/
def deserialize_networkx_graph (data : List (Nat × Nat)) : NXGraph :=
  graphFromEdges data

/-- Graph equality as labelled graphs: same node set, same undirected edge set. -/
def graphEq (g1 g2 : NXGraph) : Prop :=
  (∀ n, n ∈ g1.nodes ↔ n ∈ g2.nodes) ∧ (∀ u v, hasEdge g1 u v ↔ hasEdge g2 u v)

/-! ## Polymorphic JSON serialization (claim C1) -/

/-- JSON syntax trees. The string layer of json.dumps and json.loads is
bypassed: encoding produces the tree the dumped string denotes, decoding
consumes it, and objects are processed bottom-up exactly as the object_hook
mechanism of json.JSONDecoder does. -/
inductive JVal where
  | jnull : JVal
  | jbool : Bool → JVal
  | jnum : Int → JVal
  | jstr : String → JVal
  | jarr : List JVal → JVal
  | jobj : List (String × JVal) → JVal

/-- Python values handled by the raiden encoder and decoder: JSON scalars,
lists, dicts, and data-model entities. An entity carries its fully-qualified
type name and the dict its to_dict method returns; klass.from_dict(data) is
modelled as rebuilding an entity holding the dict it received. -/
inductive PyVal where
  | pnull : PyVal
  | pbool : Bool → PyVal
  | pnum : Int → PyVal
  | pstr : String → PyVal
  | plist : List PyVal → PyVal
  | pdict : List (String × PyVal) → PyVal
  | entity : String → List (String × PyVal) → PyVal

/-- Python exceptions raised by the encoder and decoder. -/
inductive PyErr where
  | attributeError : PyErr
  | typeError : PyErr
  | recursionError : PyErr

/-- The import environment of the decoder: which fully-qualified names can be
imported, and which of the imported classes have a from_dict method. -/
structure ImportEnv where
  importable : String → Bool
  hasFromDict : String → Bool

/-- First value stored under a key in a decoded dict. -/
def lookupKey (k : String) : List (String × PyVal) → Option PyVal
  | [] => none
  | (k2, v) :: rest => if k2 = k then some v else lookupKey k rest

/-- RaidenJSONEncoder with json.dumps (src/raiden/utils/serialization.py lines
19-31 and 64-65): an object providing to_dict is serialized as its to_dict
dict extended with a _type field holding the fully-qualified class name;
containers are serialized recursively. -/
def json_encode_val : Nat → PyVal → Except PyErr JVal
  | 0, _ => .error .recursionError
  | fuel + 1, v =>
    match v with
    | .pnull => .ok .jnull
    | .pbool b => .ok (.jbool b)
    | .pnum n => .ok (.jnum n)
    | .pstr s => .ok (.jstr s)
    | .plist l => (l.mapM (json_encode_val fuel)).map .jarr
    | .pdict fs =>
      (fs.mapM (fun kv => (json_encode_val fuel kv.2).map (fun j => (kv.1, j)))).map .jobj
    | .entity t fs =>
      (fs.mapM (fun kv => (json_encode_val fuel kv.2).map (fun j => (kv.1, j)))).map
        (fun l => .jobj (l ++ [("_type", .jstr t)]))

/-- object_hook of RaidenJSONDecoder (src/raiden/utils/serialization.py lines
42-52). When the decoded object carries a _type key, the named class is
imported (TypeError when the module lacks it) and its from_dict applied when
present. In every remaining case the code evaluates
json.JSONDecoder.object_hook, but json.JSONDecoder has no class attribute
object_hook (the attribute only ever exists on instances), so that expression
raises AttributeError; likewise a non-string _type has no split method. -/
def object_hook (env : ImportEnv) (data : List (String × PyVal)) : Except PyErr PyVal :=
  match lookupKey "_type" data with
  | some (.pstr t) =>
    if env.importable t then
      if env.hasFromDict t then .ok (.entity t data)
      else .error .attributeError
    else .error .typeError
  | some _ => .error .attributeError
  | none => .error .attributeError

/-- json.loads with RaidenJSONDecoder (src/raiden/utils/serialization.py lines
34-52 and 68-69): decode bottom-up, applying object_hook to every object. -/
def json_decode_val (env : ImportEnv) : Nat → JVal → Except PyErr PyVal
  | 0, _ => .error .recursionError
  | fuel + 1, j =>
    match j with
    | .jnull => .ok .pnull
    | .jbool b => .ok (.pbool b)
    | .jnum n => .ok (.pnum n)
    | .jstr s => .ok (.pstr s)
    | .jarr l => (l.mapM (json_decode_val env fuel)).map .plist
    | .jobj fs => do
      let dfs ← fs.mapM (fun kv => (json_decode_val env fuel kv.2).map (fun v => (kv.1, v)))
      object_hook env dfs

/-- json_encode from src/raiden/utils/serialization.py (up to the fuel of the
tree embedding). -/
def json_encode (fuel : Nat) (obj : PyVal) : Except PyErr JVal := json_encode_val fuel obj

/-- json_decode from src/raiden/utils/serialization.py (up to the fuel of the
tree embedding). -/
def json_decode (env : ImportEnv) (fuel : Nat) (obj : JVal) : Except PyErr PyVal :=
  json_decode_val env fuel obj

/-! ## The generic Properties machinery of the factories (claims C2, C9, C5) -/

/-- A field of a Properties dataclass instance
(src/raiden/tests/utils/factories.py). empty is the EMPTY sentinel string,
genV the GENERATE sentinel string, noneV is Python None, base an opaque
non-Properties value (addresses, amounts, byte strings and identifiers are
coded as naturals), blist an opaque list value (merkle tree leaves), and props
a nested Properties instance carrying its class (a numeric tag plus the field
list of the class-level DEFAULTS instance) and its own field list. Field order
is positional: instances of one class have equally long field lists. -/
inductive PField where
  | empty : PField
  | genV : PField
  | noneV : PField
  | base : Nat → PField
  | blist : List Nat → PField
  | props : Nat → List PField → List PField → PField

/-- Merge two equal-length field lists entry-wise with m; unequal lengths are
an error (replace would reject an unknown field name). -/
def zipMergeWith (m : PField → PField → Except Unit PField) :
    List PField → List PField → Except Unit (List PField)
  | [], [] => pure []
  | pf :: pfs, df :: dfs => do
      let f ← m pf df
      let fs ← zipMergeWith m pfs dfs
      pure (f :: fs)
  | _, _ => .error ()

/-- _replace_properties(properties, defaults) of the factories, given the merge
rule m for one replacement entry: defaults must be a Properties instance (its
kwargs attribute is accessed, so anything else raises AttributeError), and the
result keeps the class of defaults. -/
def replacePW (m : PField → PField → Except Unit PField) (xfs : List PField)
    (dInst : PField) : Except Unit PField :=
  match dInst with
  | .props dtag dcd dfs => (zipMergeWith m xfs dfs).map (fun fs => .props dtag dcd fs)
  | _ => .error ()

/-- One replacement entry of _replace_properties: an EMPTY field is not in
kwargs and keeps the default, a nested Properties value is merged with the
default by c (create_properties applied to the default at that field), every
other value replaces the default unchanged. -/
def mOneW (c : PField → PField → Except Unit PField) (pf df : PField) :
    Except Unit PField :=
  match pf with
  | .empty => pure df
  | .props t cd fs => c (.props t cd fs) df
  | v => pure v

/-- create_properties from src/raiden/tests/utils/factories.py lines 72-84,
with defaults=None modelled as noneV. full_defaults is the class-level DEFAULTS
instance of the properties argument, first overridden by the defaults argument
when one is given; the properties argument is then merged over full_defaults.
A non-Properties properties argument has no DEFAULTS (AttributeError), and a
non-None non-Properties defaults argument has no kwargs (AttributeError). The
fuel decreases at each nested merge; the theorems show any fuel above the
nesting depth of the shapes involved is never exhausted. -/
def create_properties : Nat → PField → PField → Except Unit PField
  | 0, _, _ => .error ()
  | fuel + 1, .props tag cd pfs, d => do
      let fd ← match d with
        | .noneV => pure (PField.props tag cd cd)
        | .props _ _ dfs => replacePW (mOneW (create_properties fuel)) dfs (.props tag cd cd)
        | _ => .error ()
      replacePW (mOneW (create_properties fuel)) pfs fd
  | _ + 1, _, _ => .error ()

mutual
/-- The merge rule exactly as the specification phrases it: every field that
the left instance leaves EMPTY is taken from the right instance, and a nested
Properties-valued field is merged recursively by the same rule; merging a
nested instance against a non-instance default (None) fills it from its own
class-level DEFAULTS. -/
def specMergeF : PField → PField → PField
  | .empty, r => r
  | .props t cd fs, r =>
    match r with
    | .props _ _ rfs => .props t cd (specMergeL fs rfs)
    | _ => .props t cd (specMergeL fs cd)
  | v, _ => v
def specMergeL : List PField → List PField → List PField
  | [], _ => []
  | _ :: _, [] => []
  | f :: fs, r :: rs => specMergeF f r :: specMergeL fs rs
end

mutual
/-- An instance is complete when no field is EMPTY, recursively. -/
def completeF : PField → Bool
  | .empty => false
  | .props _ _ fs => completeL fs
  | _ => true
def completeL : List PField → Bool
  | [] => true
  | f :: fs => completeF f && completeL fs
end

/-- Shape of a Properties class: one entry per field, none for a scalar field
and some s for a field holding instances of a nested Properties class of
shape s. -/
inductive PShape where
  | node : List (Option PShape) → PShape

mutual
/-- Nesting depth of a shape. -/
def shapeDepth : PShape → Nat
  | .node ss => shapeDepthL ss + 1
def shapeDepthL : List (Option PShape) → Nat
  | [] => 0
  | none :: ss => shapeDepthL ss
  | some s :: ss => max (shapeDepth s) (shapeDepthL ss)
end

/-- Depth of one field shape. -/
def shapeDepthO : Option PShape → Nat
  | none => 0
  | some s => shapeDepth s

/-- Well-formed field value for a field shape: scalar fields hold scalars (or
None, or are left EMPTY), and a Properties-typed field holds None, EMPTY, or an
instance of the right shape whose carried class-level DEFAULTS is itself a
complete well-formed instance of that shape. -/
inductive FieldOk : Option PShape → PField → Prop where
  | empty : ∀ os, FieldOk os .empty
  | noneV : ∀ os, FieldOk os .noneV
  | gen : FieldOk none .genV
  | base : ∀ n, FieldOk none (.base n)
  | blist : ∀ l, FieldOk none (.blist l)
  | props : ∀ ss tag cd fs, List.Forall₂ FieldOk ss cd → completeL cd = true →
      List.Forall₂ FieldOk ss fs → FieldOk (some (.node ss)) (.props tag cd fs)

/-- Well-formed instance of a class shape: field-wise well-formed values. -/
def InstOk (ss : List (Option PShape)) (fs : List PField) : Prop :=
  List.Forall₂ FieldOk ss fs

/-- Statement of the absorption law at one field: a complete instance absorbs
any merge on its right. -/
def AbsorbStmtF (n : Nat) : Prop :=
  ∀ os pf r, shapeDepthO os ≤ n → FieldOk os pf → completeF pf = true → FieldOk os r →
    specMergeF pf r = pf

/-- Absorption law, field-list version. -/
def AbsorbStmtL (n : Nat) : Prop :=
  ∀ ss fs rfs, shapeDepthL ss ≤ n → InstOk ss fs → completeL fs = true → InstOk ss rfs →
    specMergeL fs rfs = fs

/-- Statement that one replacement entry of the code agrees with the
specification merge, preserving completeness and well-formedness, for complete
well-formed defaults. -/
def MergeStmtF (n : Nat) : Prop :=
  ∀ os pf df fuel, shapeDepthO os ≤ n → n ≤ fuel →
    FieldOk os pf → FieldOk os df → completeF df = true →
    mOneW (create_properties fuel) pf df = .ok (specMergeF pf df)
    ∧ completeF (specMergeF pf df) = true
    ∧ FieldOk os (specMergeF pf df)

/-- Merge agreement, field-list version. -/
def MergeStmtL (n : Nat) : Prop :=
  ∀ ss fs dfs fuel, shapeDepthL ss ≤ n → n ≤ fuel →
    InstOk ss fs → InstOk ss dfs → completeL dfs = true →
    zipMergeWith (mOneW (create_properties fuel)) fs dfs = .ok (specMergeL fs dfs)
    ∧ completeL (specMergeL fs dfs) = true
    ∧ InstOk ss (specMergeL fs dfs)

/-! ## create and its registered overloads, generic representation (claims C9, C5) -/

/-- UNIT_ constants of the factories, coded as naturals; byte-string constants
get distinct opaque codes. -/
def UNIT_SETTLE_TIMEOUT : Nat := 50

def UNIT_REVEAL_TIMEOUT : Nat := 5

def UNIT_TRANSFER_AMOUNT : Nat := 10

def UNIT_CHAIN_ID : Nat := 337

def UNIT_CHANNEL_ID : Nat := 1338

def SUCCESS_CODE : Nat := 1

def EMPTY_MERKLE_ROOT_CODE : Nat := 0

def UNIT_TOKEN_ADDRESS_CODE : Nat := 1001

def UNIT_TOKEN_NETWORK_ADDRESS_CODE : Nat := 1002

def UNIT_PAYMENT_NETWORK_IDENTIFIER_CODE : Nat := 1003

def UNIT_TRANSFER_INITIATOR_CODE : Nat := 1004

def UNIT_TRANSFER_TARGET_CODE : Nat := 1005

def UNIT_SECRET_CODE : Nat := 1006

def UNIT_CANONICAL_ID_CODE : Nat := 1007

def TRANSFER_PKEY_SEED_CODE : Nat := 1008

/-- External collaborators of the factories: randomness draws, keccak, signing,
and raiden functions that are not under src/ (privatekey_to_address,
hash_balance_data combined with pack_balance_proof and Signer.sign,
compute_layers at the coded level, CanonicalIdentifier construction and
projections). Values are coded as naturals; every theorem holds for every
choice of these collaborators. Distinct random draws are distinct fields; two
uses of the same field stand for independent draws whose distinctness no claim
depends on. -/
structure ExtF where
  makeAddress : Nat
  makeAddress2 : Nat
  makeAddress3 : Nat
  makeAddress4 : Nat
  makeAddress5 : Nat
  makeChannelId : Nat
  makeSecret : Nat → Nat
  makeMessageId : Nat
  defaultCanonical : Nat
  mkCanonical : Nat → Nat → Nat → Nat
  pkToAddr : Nat → Nat
  sha3 : Nat → Nat
  lockHash : Nat → Nat → Nat → Nat
  signBalanceProof : Nat → Nat → Nat → Nat → Nat → Nat → Nat
  signLockedTransfer : List Nat → Nat
  ciChain : Nat → Nat
  ciChannel : Nat → Nat
  ciTNA : Nat → Nat
  computeLayersCode : List Nat → Nat
  computeMerkleWith : Nat → Nat → Nat

/-- Class tags of the Properties classes of the factories. -/
def tagTES : Nat := 1

def tagNCES : Nat := 2

def tagNCS : Nat := 3

def tagBP : Nat := 4

def tagBPS : Nat := 5

def tagLT : Nat := 6

def tagLTS : Nat := 7

def tagLock : Nat := 8

/-- Class-level DEFAULTS of TransactionExecutionStatusProperties:
(None, None, SUCCESS). -/
def tesCD : List PField := [.noneV, .noneV, .base SUCCESS_CODE]

/-- Class-level DEFAULTS of NettingChannelEndStateProperties:
(None, None, 100, None, 0) for (address, privatekey, balance,
merkletree_leaves, merkletree_width). -/
def ncesCD : List PField := [.noneV, .noneV, .base 100, .noneV, .base 0]

/-- Class-level DEFAULTS of BalanceProofProperties: (1, UNIT_TRANSFER_AMOUNT,
0, EMPTY_MERKLE_ROOT, UNIT_CANONICAL_ID) for (nonce, transferred_amount,
locked_amount, locksroot, canonical_identifier). -/
def bpCD : List PField :=
  [.base 1, .base UNIT_TRANSFER_AMOUNT, .base 0, .base EMPTY_MERKLE_ROOT_CODE,
   .base UNIT_CANONICAL_ID_CODE]

/-- Class-level DEFAULTS of NettingChannelStateProperties (lines 501-513):
fields (canonical_identifier, token_address, payment_network_identifier,
reveal_timeout, settle_timeout, mediation_fee, our_state, partner_state,
open_transaction, close_transaction, settle_transaction); the canonical
identifier contains a random channel identifier drawn at module load. -/
def ncsCD (ext : ExtF) : List PField :=
  [.base ext.defaultCanonical, .base UNIT_TOKEN_ADDRESS_CODE,
   .base UNIT_PAYMENT_NETWORK_IDENTIFIER_CODE, .base UNIT_REVEAL_TIMEOUT,
   .base UNIT_SETTLE_TIMEOUT, .base 0,
   .props tagNCES ncesCD ncesCD, .props tagNCES ncesCD ncesCD,
   .props tagTES tesCD tesCD, .noneV, .noneV]

/-- Result of the create dispatch: either the argument returned unchanged (the
generic create applied to a non-Properties value) or a constructed target
object: a tag naming the TARGET_TYPE applied to its constructor arguments. -/
inductive Obj where
  | raw : PField → Obj
  | target : Nat → List Obj → Obj

/-- Field access by position (getattr on the merged instance). -/
def fget (fs : List PField) (i : Nat) : PField := fs.getD i .empty

/-- Code of an opaque field value, for consumption by an external collaborator
(signing, hashing); in every modelled path such collaborators only consume
base-coded scalars. -/
def pcode : PField → Nat
  | .base n => n
  | _ => 0

/-- make_merkletree_leaves from the factories: a list of random secrets. -/
def make_merkletree_leaves (ext : ExtF) (width : Nat) : List Nat :=
  (List.range width).map ext.makeSecret

/-- The registered create overload for NettingChannelEndStateProperties
(factories lines 467-478), parameterized by the merge (create_properties at
the current fuel) and the recursive create: merge, create each field,
construct NettingChannelEndState(address or make_address(), balance), then
attach a merkle tree computed from the given leaves, or from
make_merkletree_leaves(width), or no tree at all when both are empty. -/
def createNCESWith (ext : ExtF) (cp : PField → PField → Except Unit PField)
    (c : PField → PField → Except Unit Obj) (tag : Nat) (cd fs : List PField)
    (dd : PField) : Except Unit Obj := do
  let merged ← cp (.props tag cd fs) dd
  match merged with
  | .props _ _ mfs => do
    let args ← mfs.mapM (fun v => c v .noneV)
    let address := match args.getD 0 (.raw .noneV) with
      | .raw .noneV => Obj.raw (.base ext.makeAddress)
      | a => a
    let leaves := match args.getD 3 (.raw .noneV) with
      | .raw (.blist l) => l
      | _ => []
    let width := match args.getD 4 (.raw .noneV) with
      | .raw (.base w) => w
      | _ => 0
    let leaves2 := if leaves.isEmpty then make_merkletree_leaves ext width else leaves
    let tree := if leaves2.isEmpty then PField.noneV
      else PField.base (ext.computeLayersCode leaves2)
    pure (.target tagNCES [address, args.getD 2 (.raw .noneV), .raw tree])
  | _ => .error ()

/-- The registered create overload for BalanceProofSignedStateProperties
(factories lines 551-570): merge, pop the private key, and when the signature
field still holds GENERATE, sign the packed balance proof data (balance hash of
transferred amount, locked amount and locksroot; additional hash; canonical
identifier; nonce). -/
def createBPSWith (ext : ExtF) (cp : PField → PField → Except Unit PField)
    (tag : Nat) (cd fs : List PField) (dd : PField) : Except Unit Obj := do
  let merged ← cp (.props tag cd fs) dd
  match merged with
  | .props _ _ mfs =>
    let sig := match fget mfs 6 with
      | .genV => PField.base (ext.signBalanceProof (pcode (fget mfs 1)) (pcode (fget mfs 2))
          (pcode (fget mfs 3)) (pcode (fget mfs 5)) (pcode (fget mfs 4)) (pcode (fget mfs 0)))
      | s => s
    pure (.target tagBPS [.raw (fget mfs 0), .raw (fget mfs 1), .raw (fget mfs 2),
      .raw (fget mfs 3), .raw (fget mfs 4), .raw (fget mfs 5), .raw sig, .raw (fget mfs 7)])
  | _ => .error ()

/-- The registered create overload for LockedTransferProperties (factories
lines 603-616): merge, build the hash time lock from amount, expiration and
sha3 of the secret, replace an EMPTY_MERKLE_ROOT locksroot by the lock hash,
create the extracted BalanceProofProperties, and construct the unsigned
transfer state. -/
def createLTWith (ext : ExtF) (cp : PField → PField → Except Unit PField)
    (c : PField → PField → Except Unit Obj) (tag : Nat) (cd fs : List PField)
    (dd : PField) : Except Unit Obj := do
  let merged ← cp (.props tag cd fs) dd
  match merged with
  | .props _ _ mfs =>
    let sh := ext.sha3 (pcode (fget mfs 11))
    let lockhash := ext.lockHash (pcode (fget mfs 5)) (pcode (fget mfs 6)) sh
    let lr := match fget mfs 3 with
      | .base n => if n = EMPTY_MERKLE_ROOT_CODE then PField.base lockhash else .base n
      | v => v
    do
      let bp ← c (.props tagBP bpCD [fget mfs 0, fget mfs 1, fget mfs 2, lr, fget mfs 4])
        .noneV
      pure (.target tagLT [bp,
        .target tagLock [.raw (fget mfs 5), .raw (fget mfs 6), .raw (.base sh)],
        .raw (fget mfs 7), .raw (fget mfs 8), .raw (fget mfs 9), .raw (fget mfs 10)])
  | _ => .error ()

/-- The registered create overload for LockedTransferSignedStateProperties
(factories lines 641-665): merge, build the lock, pop pkey and sender, project
the canonical identifier to chain id, token network address and channel
identifier, replace an EMPTY_MERKLE_ROOT locksroot by the lock hash, sign the
constructed LockedTransfer, and assert that the recovered sender equals the
requested one. -/
def createLTSWith (ext : ExtF) (cp : PField → PField → Except Unit PField)
    (tag : Nat) (cd fs : List PField) (dd : PField) : Except Unit Obj := do
  let merged ← cp (.props tag cd fs) dd
  match merged with
  | .props _ _ mfs =>
    let sh := ext.sha3 (pcode (fget mfs 11))
    let lockhash := ext.lockHash (pcode (fget mfs 5)) (pcode (fget mfs 6)) sh
    let lr := match fget mfs 3 with
      | .base n => if n = EMPTY_MERKLE_ROOT_CODE then PField.base lockhash else .base n
      | v => v
    let ci := pcode (fget mfs 4)
    let sender := pcode (fget mfs 12)
    let pk := pcode (fget mfs 14)
    let codes := [ext.ciChain ci, pcode (fget mfs 15), pcode (fget mfs 9), pcode (fget mfs 0),
      ext.ciTNA ci, pcode (fget mfs 10), ext.ciChannel ci, pcode (fget mfs 1),
      pcode (fget mfs 2), pcode (fget mfs 13), pcode lr, pcode (fget mfs 5),
      pcode (fget mfs 6), sh, pcode (fget mfs 8), pcode (fget mfs 7), pk]
    if ext.pkToAddr pk = sender then
      pure (.target tagLTS [.raw (.base (ext.ciChain ci)), .raw (fget mfs 15),
        .raw (fget mfs 9), .raw (fget mfs 0), .raw (.base (ext.ciTNA ci)),
        .raw (fget mfs 10), .raw (.base (ext.ciChannel ci)), .raw (fget mfs 1),
        .raw (fget mfs 2), .raw (fget mfs 13), .raw lr,
        .target tagLock [.raw (fget mfs 5), .raw (fget mfs 6), .raw (.base sh)],
        .raw (fget mfs 8), .raw (fget mfs 7), .raw (.base sender),
        .raw (.base (ext.signLockedTransfer codes))])
    else .error ()
  | _ => .error ()

/-- The generic create body for a Properties instance (factories lines
419-434): _properties_to_kwargs merges the instance over the defaults (or its
class DEFAULTS) and creates each merged field value; TARGET_TYPE is then
applied to the results. -/
def createGenericWith (cp : PField → PField → Except Unit PField)
    (c : PField → PField → Except Unit Obj) (tag : Nat) (cd fs : List PField)
    (dd : PField) : Except Unit Obj := do
  let merged ← cp (.props tag cd fs) dd
  match merged with
  | .props _ _ mfs => do
    let args ← mfs.mapM (fun v => c v .noneV)
    pure (.target tag args)
  | _ => .error ()

/-- create from src/raiden/tests/utils/factories.py line 419 together with the
singledispatch over its four registered overloads. A non-Properties argument is
returned unchanged by the generic body whatever the defaults argument; a
Properties instance is dispatched on its class tag. -/
def createF (ext : ExtF) : Nat → PField → PField → Except Unit Obj
  | 0, _, _ => .error ()
  | fuel + 1, .props tag cd fs, d =>
    let dd := match d with
      | .noneV => PField.props tag cd cd
      | x => x
    if tag = tagNCES then createNCESWith ext (create_properties fuel) (createF ext fuel) tag cd fs dd
    else if tag = tagBPS then createBPSWith ext (create_properties fuel) tag cd fs dd
    else if tag = tagLT then createLTWith ext (create_properties fuel) (createF ext fuel) tag cd fs dd
    else if tag = tagLTS then createLTSWith ext (create_properties fuel) tag cd fs dd
    else createGenericWith (create_properties fuel) (createF ext fuel) tag cd fs dd
  | _ + 1, v, _ => pure (.raw v)

/-! ## Channel state and make_channel_state, specialized representation
(claims C5, C4) -/

/-- TransactionExecutionStatus from raiden.transfer.state: started and finished
block numbers and a result (SUCCESS coded as a natural). -/
structure TransactionExecutionStatusM where
  started_block_number : Option Nat
  finished_block_number : Option Nat
  result : Option Nat
deriving DecidableEq

/-- NettingChannelEndState, reduced to the fields the claims consult; the
merkle tree of pending locks is kept as an opaque code, 0 for the empty tree
of a fresh end state. -/
structure NettingChannelEndStateM where
  address : Nat
  balance : Nat
  merkletree_code : Nat
deriving DecidableEq

/-- NettingChannelState, reduced to the fields the claims consult. -/
structure NettingChannelStateM where
  canonical_identifier : Nat
  token_address : Nat
  payment_network_identifier : Nat
  reveal_timeout : Nat
  settle_timeout : Nat
  mediation_fee : Nat
  our_state : NettingChannelEndStateM
  partner_state : NettingChannelEndStateM
  open_transaction : Option TransactionExecutionStatusM
  close_transaction : Option TransactionExecutionStatusM
  settle_transaction : Option TransactionExecutionStatusM
deriving DecidableEq

/-- make_channel_state from src/raiden/tests/utils/factories.py lines 186-237.
EMPTY arguments are none; random draws come from ext; the opened block number
is the literal 10 of line 212, and close_transaction and settle_transaction
are the None of lines 213-214. -/
def make_channel_state (ext : ExtF)
    (our_balance partner_balance our_address partner_address token_address
      payment_network_identifier token_network_identifier channel_identifier
      reveal_timeout settle_timeout : Option Nat) : NettingChannelStateM :=
  { canonical_identifier := ext.mkCanonical UNIT_CHAIN_ID
      (token_network_identifier.getD ext.makeAddress5)
      (channel_identifier.getD ext.makeChannelId)
    token_address := token_address.getD ext.makeAddress3
    payment_network_identifier := payment_network_identifier.getD ext.makeAddress4
    reveal_timeout := reveal_timeout.getD UNIT_REVEAL_TIMEOUT
    settle_timeout := settle_timeout.getD UNIT_SETTLE_TIMEOUT
    mediation_fee := 0
    our_state := ⟨our_address.getD ext.makeAddress, our_balance.getD 0, 0⟩
    partner_state := ⟨partner_address.getD ext.makeAddress2, partner_balance.getD 0, 0⟩
    open_transaction := some ⟨none, some 10, some SUCCESS_CODE⟩
    close_transaction := none
    settle_transaction := none }

/-- make_channel_state with every argument left EMPTY. -/
def make_channel_state_default (ext : ExtF) : NettingChannelStateM :=
  make_channel_state ext none none none none none none none none none none

/-! ## Signed transfers, specialized representation (claims C10, C4) -/

/-- An optionally-EMPTY field of the transfer properties: empty is the EMPTY
sentinel, gen the GENERATE sentinel, val an opaque coded value. -/
inductive FF where
  | empty : FF
  | gen : FF
  | val : Nat → FF
deriving DecidableEq

/-- Keep the field unless it is EMPTY (one entry of the field-wise merge). -/
def FF.orElse : FF → FF → FF
  | .empty, b => b
  | a, _ => a

/-- Is the field an actual value rather than a sentinel. -/
def FF.isVal : FF → Bool
  | .val _ => true
  | _ => false

/-- Value of a non-sentinel field (0 for sentinels; only consulted under an
isVal guard). -/
def FF.v : FF → Nat
  | .val n => n
  | _ => 0

/-- UNIT_TRANSFER_PKEY of the factories: sha3 of the bytes b"transfer pkey". -/
def UNIT_TRANSFER_PKEY_CODE (ext : ExtF) : Nat := ext.sha3 TRANSFER_PKEY_SEED_CODE

/-- UNIT_TRANSFER_SENDER of the factories:
privatekey_to_address(UNIT_TRANSFER_PKEY). -/
def UNIT_TRANSFER_SENDER_CODE (ext : ExtF) : Nat := ext.pkToAddr (UNIT_TRANSFER_PKEY_CODE ext)

/-- Class-level DEFAULTS of BalanceProofSignedStateProperties (factories lines
544-548): the five BalanceProofProperties DEFAULTS fields, then message_hash —
not set at line 544, so it keeps the dataclass field default EMPTY of line
537 — the GENERATE sentinel for signature, and the unit sender and private
key. This DEFAULTS instance is not complete. -/
def bpsCD (ext : ExtF) : List PField :=
  bpCD ++ [.empty, .genV, .base (UNIT_TRANSFER_SENDER_CODE ext),
    .base (UNIT_TRANSFER_PKEY_CODE ext)]

/-- LockedTransferSignedStateProperties as an explicit sixteen-field struct:
the five BalanceProofProperties fields, the seven further
LockedTransferProperties fields, and the four signed-state fields. This is the
generic Properties machinery specialized at one class; none of these fields is
itself Properties-valued, so create_properties is a field-wise merge here. -/
structure LTSP where
  nonce : FF := .empty
  transferred_amount : FF := .empty
  locked_amount : FF := .empty
  locksroot : FF := .empty
  canonical_identifier : FF := .empty
  amount : FF := .empty
  expiration : FF := .empty
  initiator : FF := .empty
  target : FF := .empty
  payment_identifier : FF := .empty
  token : FF := .empty
  secret : FF := .empty
  sender : FF := .empty
  recipient : FF := .empty
  pkey : FF := .empty
  message_identifier : FF := .empty
deriving DecidableEq

/-- The all-EMPTY instance LockedTransferSignedStateProperties(). -/
def LTSP.mkEmpty : LTSP := {}

/-- Field-wise merge of two instances, fields of the first winning unless
EMPTY. -/
def mergeLTSP (p d : LTSP) : LTSP :=
  ⟨p.nonce.orElse d.nonce, p.transferred_amount.orElse d.transferred_amount,
   p.locked_amount.orElse d.locked_amount, p.locksroot.orElse d.locksroot,
   p.canonical_identifier.orElse d.canonical_identifier, p.amount.orElse d.amount,
   p.expiration.orElse d.expiration, p.initiator.orElse d.initiator,
   p.target.orElse d.target, p.payment_identifier.orElse d.payment_identifier,
   p.token.orElse d.token, p.secret.orElse d.secret, p.sender.orElse d.sender,
   p.recipient.orElse d.recipient, p.pkey.orElse d.pkey,
   p.message_identifier.orElse d.message_identifier⟩

/-- Class-level DEFAULTS of LockedTransferSignedStateProperties (factories
lines 632-638, built over lines 589-600 and 526-532): nonce 1, transferred 0,
locked UNIT_TRANSFER_AMOUNT, locksroot EMPTY_MERKLE_ROOT, the unit canonical
identifier, amount UNIT_TRANSFER_AMOUNT, expiration UNIT_REVEAL_TIMEOUT, unit
initiator, target, payment identifier 1, unit token and secret, the unit
sender and private key, recipient UNIT_TRANSFER_TARGET, message identifier 1. -/
def LTSP.DEFAULTS (ext : ExtF) : LTSP :=
  ⟨.val 1, .val 0, .val UNIT_TRANSFER_AMOUNT, .val EMPTY_MERKLE_ROOT_CODE,
   .val UNIT_CANONICAL_ID_CODE, .val UNIT_TRANSFER_AMOUNT, .val UNIT_REVEAL_TIMEOUT,
   .val UNIT_TRANSFER_INITIATOR_CODE, .val UNIT_TRANSFER_TARGET_CODE, .val 1,
   .val UNIT_TOKEN_ADDRESS_CODE, .val UNIT_SECRET_CODE,
   .val (UNIT_TRANSFER_SENDER_CODE ext), .val UNIT_TRANSFER_TARGET_CODE,
   .val (UNIT_TRANSFER_PKEY_CODE ext), .val 1⟩

/-- create_properties specialized at LockedTransferSignedStateProperties:
merge the defaults argument (when given) over the class DEFAULTS, then the
properties argument over the result. -/
def create_properties_ltsp (ext : ExtF) (p : LTSP) (d : Option LTSP) : LTSP :=
  mergeLTSP p (match d with
    | some dd => mergeLTSP dd (LTSP.DEFAULTS ext)
    | none => LTSP.DEFAULTS ext)

/-- Are all sixteen fields actual values. -/
def LTSP.allVal (t : LTSP) : Bool :=
  t.nonce.isVal && t.transferred_amount.isVal && t.locked_amount.isVal &&
  t.locksroot.isVal && t.canonical_identifier.isVal && t.amount.isVal &&
  t.expiration.isVal && t.initiator.isVal && t.target.isVal &&
  t.payment_identifier.isVal && t.token.isVal && t.secret.isVal && t.sender.isVal &&
  t.recipient.isVal && t.pkey.isVal && t.message_identifier.isVal

/-- SIGNED_TRANSFER_FOR_CHANNEL_DEFAULTS (factories lines 668-670):
the class DEFAULTS with expiration UNIT_SETTLE_TIMEOUT minus
UNIT_REVEAL_TIMEOUT. -/
def SIGNED_TRANSFER_FOR_CHANNEL_DEFAULTS (ext : ExtF) : LTSP :=
  create_properties_ltsp ext
    { LTSP.mkEmpty with expiration := .val (UNIT_SETTLE_TIMEOUT - UNIT_REVEAL_TIMEOUT) } none

/-- A signed locked transfer (the LockedTransfer message, equally the
LockedTransferSignedState that lockedtransfersigned_from_message builds from
it), reduced to coded fields; the sender is the address recovered from the
signature (privatekey_to_address of the signing key). -/
structure TransferM where
  chain_id : Nat
  message_identifier : Nat
  payment_identifier : Nat
  nonce : Nat
  token_network_address : Nat
  token : Nat
  channel_identifier : Nat
  transferred_amount : Nat
  locked_amount : Nat
  recipient : Nat
  locksroot : Nat
  lock_amount : Nat
  lock_expiration : Nat
  lock_secrethash : Nat
  target : Nat
  initiator : Nat
  sender : Nat
  signature : Nat
deriving DecidableEq

/-- The registered create overload for LockedTransferSignedStateProperties
(factories lines 641-665), specialized: merge properties over defaults, build
the lock from amount, expiration and sha3 of the secret, project the canonical
identifier onto chain id, token network address and channel identifier,
replace an EMPTY_MERKLE_ROOT locksroot by the lock hash, sign, and assert that
the recovered sender equals the requested one. Sentinel-valued fields cannot
be consumed by the constructors and are an error (the merged instance is
always complete on every modelled path). -/
def create_ltsp (ext : ExtF) (properties : LTSP) (defaults : Option LTSP) :
    Except String TransferM :=
  let t := create_properties_ltsp ext properties defaults
  if t.allVal then
    let sh := ext.sha3 t.secret.v
    let lockhash := ext.lockHash t.amount.v t.expiration.v sh
    let lr := if t.locksroot.v = EMPTY_MERKLE_ROOT_CODE then lockhash else t.locksroot.v
    let transfer : TransferM :=
      { chain_id := ext.ciChain t.canonical_identifier.v,
        message_identifier := t.message_identifier.v,
        payment_identifier := t.payment_identifier.v,
        nonce := t.nonce.v,
        token_network_address := ext.ciTNA t.canonical_identifier.v,
        token := t.token.v,
        channel_identifier := ext.ciChannel t.canonical_identifier.v,
        transferred_amount := t.transferred_amount.v,
        locked_amount := t.locked_amount.v,
        recipient := t.recipient.v,
        locksroot := lr,
        lock_amount := t.amount.v,
        lock_expiration := t.expiration.v,
        lock_secrethash := sh,
        target := t.target.v,
        initiator := t.initiator.v,
        sender := ext.pkToAddr t.pkey.v,
        signature := ext.signLockedTransfer [ext.ciChain t.canonical_identifier.v,
          t.message_identifier.v, t.payment_identifier.v, t.nonce.v,
          ext.ciTNA t.canonical_identifier.v, t.token.v,
          ext.ciChannel t.canonical_identifier.v, t.transferred_amount.v,
          t.locked_amount.v, t.recipient.v, lr, t.amount.v, t.expiration.v, sh,
          t.target.v, t.initiator.v, t.pkey.v] }
    if ext.pkToAddr t.pkey.v = t.sender.v then .ok transfer
    else .error "assert locked_transfer.sender == sender"
  else .error "sentinel field"

/-- create(NettingChannelStateProperties()), in the specialized channel
representation: the generic-representation evaluation of the same DEFAULTS is
the subject of the claim C5 theorem; this is the corresponding record. -/
def create_default_channel (ext : ExtF) : NettingChannelStateM :=
  { canonical_identifier := ext.defaultCanonical,
    token_address := UNIT_TOKEN_ADDRESS_CODE,
    payment_network_identifier := UNIT_PAYMENT_NETWORK_IDENTIFIER_CODE,
    reveal_timeout := UNIT_REVEAL_TIMEOUT,
    settle_timeout := UNIT_SETTLE_TIMEOUT,
    mediation_fee := 0,
    our_state := ⟨ext.makeAddress, 100, 0⟩,
    partner_state := ⟨ext.makeAddress, 100, 0⟩,
    open_transaction := some ⟨none, none, some SUCCESS_CODE⟩,
    close_transaction := none,
    settle_transaction := none }

/-- make_signed_transfer_for from src/raiden/tests/utils/factories.py lines
673-740. An EMPTY channel resolves to create(NettingChannelStateProperties());
properties are merged over SIGNED_TRANSFER_FOR_CHANNEL_DEFAULTS (or the given
defaults); with allow_invalid False the merged expiration must be strictly
between the reveal and settle timeouts of the channel (the assertion of lines
688-691, checked before anything else); is_valid_lockedtransfer lives in
raiden.transfer.channel which is not under src/, so the final validation of
lines 731-738 is the isValidLT parameter. -/
def make_signed_transfer_for (ext : ExtF)
    (isValidLT : TransferM → NettingChannelStateM → Bool)
    (channel_state : Option NettingChannelStateM) (properties defaults : Option LTSP)
    (compute_locksroot allow_invalid only_transfer : Bool) : Except String TransferM :=
  let props := create_properties_ltsp ext (properties.getD LTSP.mkEmpty)
    (some (defaults.getD (SIGNED_TRANSFER_FOR_CHANNEL_DEFAULTS ext)))
  let cs := channel_state.getD (create_default_channel ext)
  let expCheck : Except String Unit :=
    if allow_invalid then .ok ()
    else match props.expiration with
      | .val e =>
        if cs.reveal_timeout < e ∧ e < cs.settle_timeout then .ok ()
        else .error "Expiration must be between reveal_timeout and settle_timeout."
      | _ => .error "expiration is a sentinel"
  match expCheck with
  | .error s => .error s
  | .ok _ =>
    match props.pkey, props.sender with
    | .val pk, .val sd =>
      if ext.pkToAddr pk = sd then
        let recipCheck : Except String Nat :=
          if sd = cs.our_state.address then .ok cs.partner_state.address
          else if sd = cs.partner_state.address then .ok cs.our_state.address
          else .error "Given sender does not participate in given channel."
        match recipCheck with
        | .error s => .error s
        | .ok recipient =>
          let locksroot : FF :=
            if compute_locksroot then
              .val (ext.computeMerkleWith cs.partner_state.merkletree_code
                (ext.lockHash props.amount.v props.expiration.v (ext.sha3 props.secret.v)))
            else props.locksroot
          let tp : LTSP :=
            if only_transfer then
              { LTSP.mkEmpty with
                locksroot := locksroot
                canonical_identifier := .val cs.canonical_identifier
                locked_amount := props.amount
                recipient := .val recipient }
            else
              { LTSP.mkEmpty with
                locksroot := locksroot
                canonical_identifier := .val cs.canonical_identifier
                recipient := .val recipient }
          match create_ltsp ext tp (some props) with
          | .error s => .error s
          | .ok transfer =>
            if allow_invalid then .ok transfer
            else if isValidLT transfer cs then .ok transfer
            else .error "is_valid_lockedtransfer failed"
      else .error "assert privatekey_to_address(pkey) == sender"
    | _, _ => .error "pkey or sender is a sentinel"

/-- The optionally-given arguments of make_signed_transfer (EMPTY is none). -/
structure MSTArgs where
  amount : Option Nat := none
  initiator : Option Nat := none
  target : Option Nat := none
  expiration : Option Nat := none
  secret : Option Nat := none
  payment_identifier : Option Nat := none
  message_identifier : Option Nat := none
  nonce : Option Nat := none
  transferred_amount : Option Nat := none
  locked_amount : Option Nat := none
  locksroot : Option Nat := none
  recipient : Option Nat := none
  channel_identifier : Option Nat := none
  token_network_address : Option Nat := none
  token : Option Nat := none
  pkey : Option Nat := none
  sender : Option Nat := none

/-- make_signed_transfer from src/raiden/tests/utils/factories.py lines
273-338: resolve every EMPTY argument to its default (locked_amount defaults
to the resolved amount), assert locked_amount >= amount, build the lock,
replace an EMPTY_MERKLE_ROOT locksroot with sha3 of the lock byte encoding,
sign, and assert the recovered sender. -/
def make_signed_transfer (ext : ExtF) (a : MSTArgs) : Except String TransferM :=
  let amount := a.amount.getD UNIT_TRANSFER_AMOUNT
  let initiator := a.initiator.getD ext.makeAddress
  let target := a.target.getD ext.makeAddress2
  let expiration := a.expiration.getD UNIT_REVEAL_TIMEOUT
  let secret := a.secret.getD (ext.makeSecret 0)
  let payment_identifier := a.payment_identifier.getD 1
  let message_identifier := a.message_identifier.getD ext.makeMessageId
  let nonce := a.nonce.getD 1
  let transferred_amount := a.transferred_amount.getD 0
  let locked_amount := a.locked_amount.getD amount
  let locksroot := a.locksroot.getD EMPTY_MERKLE_ROOT_CODE
  let recipient := a.recipient.getD UNIT_TRANSFER_TARGET_CODE
  let channel_identifier := a.channel_identifier.getD UNIT_CHANNEL_ID
  let token_network_address := a.token_network_address.getD UNIT_TOKEN_NETWORK_ADDRESS_CODE
  let token := a.token.getD UNIT_TOKEN_ADDRESS_CODE
  let pkey := a.pkey.getD (UNIT_TRANSFER_PKEY_CODE ext)
  let sender := a.sender.getD (UNIT_TRANSFER_SENDER_CODE ext)
  if locked_amount < amount then .error "assert locked_amount >= amount"
  else
    let sh := ext.sha3 secret
    let lr := if locksroot = EMPTY_MERKLE_ROOT_CODE then ext.lockHash amount expiration sh
      else locksroot
    let transfer : TransferM :=
      { chain_id := UNIT_CHAIN_ID, message_identifier := message_identifier,
        payment_identifier := payment_identifier, nonce := nonce,
        token_network_address := token_network_address, token := token,
        channel_identifier := channel_identifier,
        transferred_amount := transferred_amount, locked_amount := locked_amount,
        recipient := recipient, locksroot := lr, lock_amount := amount,
        lock_expiration := expiration, lock_secrethash := sh, target := target,
        initiator := initiator, sender := ext.pkToAddr pkey,
        signature := ext.signLockedTransfer [UNIT_CHAIN_ID, message_identifier,
          payment_identifier, nonce, token_network_address, token, channel_identifier,
          transferred_amount, locked_amount, recipient, lr, amount, expiration, sh,
          target, initiator, pkey] }
    if ext.pkToAddr pkey = sender then .ok transfer
    else .error "assert transfer.sender == sender"

/-! ### Theorems: hex and participants (claims C6, C7) -/

theorem hexCharVal_hexDigitChar : ∀ n, n < 16 → hexCharVal (hexDigitChar n) = some n := by
  decide

theorem bytesToHex_length : ∀ l : List Nat, (bytesToHex l).length = 2 * l.length := by
  intro l
  induction l with
  | nil => rfl
  | cons b bs ih => simp [bytesToHex, byteHexChars, ih]; omega

theorem hexPairsToBytes_bytesToHex : ∀ l, IsBytes l → hexPairsToBytes (bytesToHex l) = some l := by
  intro l h
  induction l with
  | nil => rfl
  | cons b bs ih =>
    have hb : b < 256 := h b (List.mem_cons_self b bs)
    have hmerge : b / 16 * 16 + b % 16 = b := by omega
    have ihs := ih (fun x hx => h x (List.mem_cons_of_mem _ hx))
    simp only [bytesToHex, byteHexChars, List.cons_append, List.append_eq, List.nil_append,
      hexPairsToBytes,
      hexCharVal_hexDigitChar (b / 16) (by omega), hexCharVal_hexDigitChar (b % 16) (by omega),
      ihs, Option.bind_eq_bind, Option.some_bind, hmerge]
    rfl

/-- C6: for every byte string b, deserialize_bytes (serialize_bytes b) = b, the
serialized form being the hex-string encoding of b. -/
theorem deserialize_serialize_bytes (b : List Nat) (h : IsBytes b) :
    deserialize_bytes (serialize_bytes b) = some b := by
  show to_bytes_chars ('0' :: 'x' :: bytesToHex b) = some b
  unfold to_bytes_chars
  have hdrop : dropHexMark ('0' :: 'x' :: bytesToHex b) = bytesToHex b := rfl
  rw [hdrop]
  have hlen : (bytesToHex b).length % 2 = 0 := by rw [bytesToHex_length]; omega
  rw [if_neg (by omega)]
  exact hexPairsToBytes_bytesToHex b h

theorem deserialize_serialize_bytes_witness :
    IsBytes [0, 15, 16, 171, 255] ∧
      deserialize_bytes (serialize_bytes [0, 15, 16, 171, 255]) = some [0, 15, 16, 171, 255] :=
  ⟨by decide, deserialize_serialize_bytes [0, 15, 16, 171, 255] (by decide)⟩

theorem toLower_capped_hexDigit :
    ∀ n, n < 16 → ∀ b : Bool,
      toLowerCharM (if b then toUpperHexChar (hexDigitChar n) else hexDigitChar n) =
        hexDigitChar n := by
  decide

theorem bytesToHex_mem_hexDigit :
    ∀ l, IsBytes l → ∀ c ∈ bytesToHex l, ∃ n, n < 16 ∧ c = hexDigitChar n := by
  intro l h
  induction l with
  | nil => intro c hc; cases hc
  | cons b bs ih =>
    intro c hc
    have hb : b < 256 := h b (List.mem_cons_self b bs)
    simp only [bytesToHex, byteHexChars, List.cons_append, List.nil_append, List.mem_cons] at hc
    rcases hc with h1 | h2 | h3
    · exact ⟨b / 16, by omega, h1⟩
    · exact ⟨b % 16, by omega, h2⟩
    · exact ih (fun x hx => h x (List.mem_cons_of_mem _ hx)) c h3

theorem map_toLower_applyChecksumCaps (mask : Nat → Bool) :
    ∀ l, (∀ c ∈ l, ∃ n, n < 16 ∧ c = hexDigitChar n) →
      ∀ i, (applyChecksumCaps mask i l).map toLowerCharM = l := by
  intro l hl
  induction l with
  | nil => intro i; rfl
  | cons c cs ih =>
    intro i
    obtain ⟨n, hn, hc⟩ := hl c (List.mem_cons_self c cs)
    simp only [applyChecksumCaps, List.map_cons]
    rw [ih (fun x hx => hl x (List.mem_cons_of_mem _ hx)) (i + 1), hc,
      toLower_capped_hexDigit n hn (mask i)]

theorem to_canonical_to_checksum (mask : Nat → Bool) (a : List Nat) (h : IsBytes a) :
    to_canonical_address (to_checksum_address mask a) = some a := by
  show to_bytes_chars (('0' :: 'x' :: applyChecksumCaps mask 0 (bytesToHex a)).map toLowerCharM)
    = some a
  have h0 : toLowerCharM '0' = '0' := by decide
  have hx : toLowerCharM 'x' = 'x' := by decide
  rw [List.map_cons, List.map_cons, h0, hx,
    map_toLower_applyChecksumCaps mask (bytesToHex a) (bytesToHex_mem_hexDigit a h) 0]
  unfold to_bytes_chars
  have hdrop : dropHexMark ('0' :: 'x' :: bytesToHex a) = bytesToHex a := rfl
  rw [hdrop]
  have hlen : (bytesToHex a).length % 2 = 0 := by rw [bytesToHex_length]; omega
  rw [if_neg (by omega)]
  exact hexPairsToBytes_bytesToHex a h

/-- C7: for canonical 20-byte addresses, deserializing the serialized
participants tuple returns the original pair (for every EIP-55 capitalization
mask), and deserialize_participants_tuple rejects every input list whose length
is not exactly two. -/
theorem participants_tuple_roundtrip (mask : Nat → Bool) (a1 a2 : List Nat)
    (h1 : IsBytes a1) (h2 : IsBytes a2) (hl1 : a1.length = 20) (hl2 : a2.length = 20) :
    deserialize_participants_tuple (serialize_participants_tuple mask (a1, a2)) = .ok (a1, a2)
    ∧ ∀ l : List String, l.length ≠ 2 →
        deserialize_participants_tuple l = .error "assert len(data) == 2" := by
  constructor
  · have e1 := to_canonical_to_checksum mask a1 h1
    have e2 := to_canonical_to_checksum mask a2 h2
    simp [deserialize_participants_tuple, serialize_participants_tuple, e1, e2]
  · intro l hl
    match l with
    | [] => rfl
    | [a] => rfl
    | [a, b] => exact absurd rfl hl
    | a :: b :: c :: rest => rfl

theorem participants_tuple_roundtrip_witness :
    deserialize_participants_tuple
        (serialize_participants_tuple (fun _ => true) (List.replicate 20 0, List.replicate 19 255 ++ [1]))
      = .ok (List.replicate 20 0, List.replicate 19 255 ++ [1])
    ∧ deserialize_participants_tuple [] = .error "assert len(data) == 2" := by
  have h := participants_tuple_roundtrip (fun _ => true)
    (List.replicate 20 0) (List.replicate 19 255 ++ [1])
    (by decide) (by decide) (by decide) (by decide)
  exact ⟨h.1, h.2 [] (by decide)⟩

/-! ### Theorems: merkle layers (claim C3) -/

theorem lexLeB_total : ∀ a b : List Nat, lexLeB a b = true ∨ lexLeB b a = true := by
  intro a
  induction a with
  | nil => intro b; left; rfl
  | cons x xs ih =>
    intro b
    cases b with
    | nil => right; rfl
    | cons y ys =>
      by_cases h1 : x < y
      · left; simp [lexLeB, h1]
      · by_cases h2 : x = y
        · subst h2
          rcases ih ys with h | h
          · left; simp [lexLeB, h]
          · right; simp [lexLeB, h]
        · right
          have h3 : y < x := by omega
          simp [lexLeB, h3]

theorem orderedInsertB_sorted (x : List Nat) :
    ∀ l, isSortedB l → isSortedB (orderedInsertB x l) := by
  intro l
  induction l with
  | nil => intro _; simp [orderedInsertB, isSortedB]
  | cons y ys ih =>
    intro hs
    by_cases hxy : lexLeB x y = true
    · simp only [orderedInsertB, if_pos hxy, isSortedB]
      exact ⟨hxy, hs⟩
    · have hyx : lexLeB y x = true := (lexLeB_total x y).resolve_left hxy
      simp only [orderedInsertB, if_neg hxy]
      cases ys with
      | nil => simp [orderedInsertB, isSortedB, hyx]
      | cons z zs =>
        have hyz : lexLeB y z = true := hs.1
        have hszs : isSortedB (z :: zs) := hs.2
        by_cases hxz : lexLeB x z = true
        · simp only [orderedInsertB, if_pos hxz, isSortedB]
          exact ⟨hyx, hxz, hszs⟩
        · have hrec := ih hszs
          simp only [orderedInsertB, if_neg hxz] at hrec ⊢
          exact ⟨hyz, hrec⟩

theorem sortLeaves_sorted : ∀ l, isSortedB (sortLeaves l) := by
  intro l
  induction l with
  | nil => simp [sortLeaves, isSortedB]
  | cons a rest ih => exact orderedInsertB_sorted a (sortLeaves rest) ih

theorem isSortedB_tail : ∀ a : List Nat, ∀ l, isSortedB (a :: l) → isSortedB l := by
  intro a l h
  cases l with
  | nil => simp [isSortedB]
  | cons b bs => exact h.2

theorem sortLeaves_sorted_eq : ∀ l, isSortedB l → sortLeaves l = l := by
  intro l
  induction l with
  | nil => intro _; rfl
  | cons a rest ih =>
    intro hs
    have htail := isSortedB_tail a rest hs
    simp only [sortLeaves, ih htail]
    cases rest with
    | nil => rfl
    | cons b bs => simp only [orderedInsertB, if_pos hs.1]

theorem sortLeaves_idem (l : List (List Nat)) : sortLeaves (sortLeaves l) = sortLeaves l :=
  sortLeaves_sorted_eq (sortLeaves l) (sortLeaves_sorted l)

theorem orderedInsertB_length (x : List Nat) :
    ∀ l, (orderedInsertB x l).length = l.length + 1 := by
  intro l
  induction l with
  | nil => rfl
  | cons y ys ih =>
    by_cases h : lexLeB x y = true
    · simp [orderedInsertB, if_pos h]
    · simp [orderedInsertB, if_neg h, ih]

theorem sortLeaves_length : ∀ l : List (List Nat), (sortLeaves l).length = l.length := by
  intro l
  induction l with
  | nil => rfl
  | cons a rest ih => simp [sortLeaves, orderedInsertB_length, ih]

theorem mem_orderedInsertB (x y : List Nat) :
    ∀ l, y ∈ orderedInsertB x l → y = x ∨ y ∈ l := by
  intro l
  induction l with
  | nil => intro h; simp [orderedInsertB] at h; exact Or.inl h
  | cons z zs ih =>
    intro h
    by_cases hxz : lexLeB x z = true
    · simp only [orderedInsertB, if_pos hxz, List.mem_cons] at h
      rcases h with h | h | h
      · exact Or.inl h
      · exact Or.inr (by simp [h])
      · exact Or.inr (by simp [h])
    · simp only [orderedInsertB, if_neg hxz, List.mem_cons] at h
      rcases h with h | h
      · exact Or.inr (by simp [h])
      · rcases ih h with h2 | h2
        · exact Or.inl h2
        · exact Or.inr (by simp [h2])

theorem mem_sortLeaves (y : List Nat) : ∀ l, y ∈ sortLeaves l → y ∈ l := by
  intro l
  induction l with
  | nil => intro h; cases h
  | cons a rest ih =>
    intro h
    rcases mem_orderedInsertB a y (sortLeaves rest) h with h2 | h2
    · simp [h2]
    · exact List.mem_cons_of_mem a (ih h2)

theorem buildLayers_head (hp : List Nat → List Nat → List Nat) :
    ∀ fuel layer, (buildLayers hp fuel layer).get? 0 = some layer := by
  intro fuel layer
  cases fuel with
  | zero => rfl
  | succ f =>
    simp only [buildLayers]
    split <;> rfl

theorem mapListOption_roundtrip :
    ∀ l : List (List Nat), (∀ x ∈ l, IsBytes x) →
      mapListOption deserialize_bytes (map_list serialize_bytes l) = some l := by
  intro l
  induction l with
  | nil => intro _; rfl
  | cons a rest ih =>
    intro h
    have ha := deserialize_serialize_bytes a (h a (List.mem_cons_self a rest))
    have hrest := ih (fun x hx => h x (List.mem_cons_of_mem _ hx))
    simp only [map_list, List.map_cons] at hrest ⊢
    simp [mapListOption, ha, hrest]

/-- C3: serializing the layers computed from a list of 32-byte leaves stores
exactly the hex-encoded (canonically sorted) leaves layer, and deserializing
that output recomputes the layer structure equal to the original: the complete
tree is a function of the leaf sequence alone. -/
theorem merkletree_layers_roundtrip (hp : List Nat → List Nat → List Nat)
    (leaves : List (List Nat)) (h : ∀ x ∈ leaves, IsBytes x ∧ x.length = 32) :
    serialize_merkletree_layers (compute_layers hp leaves)
        = .ok (map_list serialize_bytes (sortLeaves leaves))
    ∧ deserialize_merkletree_layers hp (map_list serialize_bytes (sortLeaves leaves))
        = some (compute_layers hp leaves) := by
  constructor
  · show (match (buildLayers hp leaves.length (sortLeaves leaves)).get? LEAVES with
      | some l0 => Except.ok (map_list serialize_bytes l0)
      | none => Except.error "IndexError")
      = Except.ok (map_list serialize_bytes (sortLeaves leaves))
    rw [show LEAVES = 0 from rfl, buildLayers_head]
  · unfold deserialize_merkletree_layers
    rw [mapListOption_roundtrip (sortLeaves leaves)
      (fun x hx => (h x (mem_sortLeaves x leaves hx)).1)]
    show some (compute_layers hp (sortLeaves leaves)) = some (compute_layers hp leaves)
    unfold compute_layers
    rw [sortLeaves_idem, sortLeaves_length]

theorem merkletree_layers_roundtrip_witness :
    serialize_merkletree_layers
        (compute_layers (fun _ _ => []) [List.range 32, List.replicate 32 255])
        = .ok (map_list serialize_bytes
            (sortLeaves [List.range 32, List.replicate 32 255]))
    ∧ deserialize_merkletree_layers (fun _ _ => [])
        (map_list serialize_bytes (sortLeaves [List.range 32, List.replicate 32 255]))
        = some (compute_layers (fun _ _ => []) [List.range 32, List.replicate 32 255]) :=
  merkletree_layers_roundtrip (fun _ _ => []) [List.range 32, List.replicate 32 255]
    (by decide)

/-! ### Theorems: networkx graphs (claim C8) -/

theorem mem_addNode_nodes (g : NXGraph) (w n : Nat) :
    n ∈ (addNode g w).nodes ↔ n ∈ g.nodes ∨ n = w := by
  unfold addNode
  split
  · rename_i h
    constructor
    · exact fun hn => Or.inl hn
    · rintro (hn | rfl)
      · exact hn
      · exact h
  · simp

theorem addNode_edges (g : NXGraph) (w : Nat) : (addNode g w).edges = g.edges := by
  unfold addNode; split <;> rfl

theorem hasEdge_addEdge (g : NXGraph) (u v a b : Nat) :
    hasEdge (addEdge g u v) a b ↔ hasEdge g a b ∨ (a = u ∧ b = v) ∨ (a = v ∧ b = u) := by
  by_cases h : (u, v) ∈ (addNode (addNode g u) v).edges ∨ (v, u) ∈ (addNode (addNode g u) v).edges
  · rw [addEdge, if_pos h]
    rw [addNode_edges, addNode_edges] at h
    unfold hasEdge
    rw [addNode_edges, addNode_edges]
    constructor
    · exact Or.inl
    · rintro (hn | ⟨rfl, rfl⟩ | ⟨rfl, rfl⟩)
      · exact hn
      · exact h
      · exact Or.symm h
  · rw [addEdge, if_neg h]
    unfold hasEdge
    simp only [addNode_edges, List.mem_append, List.mem_singleton, Prod.mk.injEq]
    tauto

theorem mem_addEdge_nodes (g : NXGraph) (u v n : Nat) :
    n ∈ (addEdge g u v).nodes ↔ n ∈ g.nodes ∨ n = u ∨ n = v := by
  unfold addEdge
  have hn : ∀ g2 : NXGraph, n ∈ (addNode (addNode g2 u) v).nodes ↔ n ∈ g2.nodes ∨ n = u ∨ n = v := by
    intro g2
    rw [mem_addNode_nodes, mem_addNode_nodes]
    tauto
  split
  · exact hn g
  · exact hn g

theorem graphFromEdges_acc_nodes (n : Nat) :
    ∀ es : List (Nat × Nat), ∀ g : NXGraph,
      n ∈ (es.foldl (fun g e => addEdge g e.1 e.2) g).nodes
        ↔ n ∈ g.nodes ∨ ∃ e ∈ es, n = e.1 ∨ n = e.2 := by
  intro es
  induction es with
  | nil => intro g; simp
  | cons e rest ih =>
    intro g
    simp only [List.foldl_cons, ih, mem_addEdge_nodes, List.mem_cons]
    constructor
    · rintro ((h | h | h) | ⟨e2, he2, h⟩)
      · exact Or.inl h
      · exact Or.inr ⟨e, Or.inl rfl, Or.inl h⟩
      · exact Or.inr ⟨e, Or.inl rfl, Or.inr h⟩
      · exact Or.inr ⟨e2, Or.inr he2, h⟩
    · rintro (h | ⟨e2, (rfl | he2), h⟩)
      · exact Or.inl (Or.inl h)
      · exact Or.inl (Or.inr h)
      · exact Or.inr ⟨e2, he2, h⟩

theorem graphFromEdges_acc_edges (a b : Nat) :
    ∀ es : List (Nat × Nat), ∀ g : NXGraph,
      hasEdge (es.foldl (fun g e => addEdge g e.1 e.2) g) a b
        ↔ hasEdge g a b ∨ ∃ e ∈ es, (a, b) = e ∨ (b, a) = e := by
  intro es
  induction es with
  | nil => intro g; simp
  | cons e rest ih =>
    intro g
    simp only [List.foldl_cons, ih, hasEdge_addEdge, List.mem_cons]
    constructor
    · rintro ((h | ⟨rfl, rfl⟩ | ⟨rfl, rfl⟩) | ⟨e2, he2, h⟩)
      · exact Or.inl h
      · exact Or.inr ⟨e, Or.inl rfl, Or.inl rfl⟩
      · exact Or.inr ⟨e, Or.inl rfl, Or.inr rfl⟩
      · exact Or.inr ⟨e2, Or.inr he2, h⟩
    · rintro (h | ⟨e2, (rfl | he2), h⟩)
      · exact Or.inl (Or.inl h)
      · rcases h with h | h
        · exact Or.inl (Or.inr (Or.inl ⟨congrArg Prod.fst h, congrArg Prod.snd h⟩))
        · exact Or.inl (Or.inr (Or.inr ⟨congrArg Prod.snd h, congrArg Prod.fst h⟩))
      · exact Or.inr ⟨e2, he2, h⟩

/-- Counterexample to C8 as stated: a graph with an isolated node is not
reconstructed from its edge list, since the edge list does not mention it. -/
theorem networkx_graph_roundtrip_counterexample :
    ¬ graphEq (deserialize_networkx_graph (serialize_networkx_graph ⟨[7], []⟩)) ⟨[7], []⟩ := by
  intro h
  have h7 := (h.1 7).2 (by simp)
  simp [deserialize_networkx_graph, serialize_networkx_graph, graphFromEdges,
    NXGraph.empty] at h7

/-- C8 (amended): for every graph whose edge endpoints are nodes and in which
every node lies on at least one edge, deserializing the serialized edge list
reconstructs a graph equal to the original (same node set, same edge set). -/
theorem networkx_graph_roundtrip (g : NXGraph)
    (hwf : ∀ e ∈ g.edges, e.1 ∈ g.nodes ∧ e.2 ∈ g.nodes)
    (hiso : ∀ n ∈ g.nodes, ∃ e ∈ g.edges, n = e.1 ∨ n = e.2) :
    graphEq (deserialize_networkx_graph (serialize_networkx_graph g)) g := by
  constructor
  · intro n
    show n ∈ (graphFromEdges g.edges).nodes ↔ n ∈ g.nodes
    unfold graphFromEdges
    rw [graphFromEdges_acc_nodes]
    constructor
    · rintro (h | ⟨e, he, h⟩)
      · cases h
      · rcases h with rfl | rfl
        · exact (hwf e he).1
        · exact (hwf e he).2
    · intro h
      exact Or.inr (hiso n h)
  · intro u v
    show hasEdge (graphFromEdges g.edges) u v ↔ hasEdge g u v
    unfold graphFromEdges
    rw [graphFromEdges_acc_edges]
    unfold hasEdge
    constructor
    · rintro (h | ⟨e, he, h⟩)
      · rcases h with h | h
        · cases h
        · cases h
      · rcases h with rfl | rfl
        · exact Or.inl he
        · exact Or.inr he
    · rintro (h | h)
      · exact Or.inr ⟨(u, v), h, Or.inl rfl⟩
      · exact Or.inr ⟨(v, u), h, Or.inr rfl⟩

theorem networkx_graph_roundtrip_witness :
    graphEq
      (deserialize_networkx_graph (serialize_networkx_graph ⟨[1, 2, 3], [(1, 2), (3, 2)]⟩))
      ⟨[1, 2, 3], [(1, 2), (3, 2)]⟩ :=
  networkx_graph_roundtrip ⟨[1, 2, 3], [(1, 2), (3, 2)]⟩ (by decide) (by decide)

/-! ### Theorems: JSON serialization (claim C1) -/

/-- C1 (failing input): json_decode applied to json_encode of an entity that
provides to_dict and from_dict but whose to_dict dict nests one plain JSON
object with no _type key raises AttributeError instead of round-tripping: the
fallback json.JSONDecoder.object_hook named on line 52 of
src/raiden/utils/serialization.py does not exist as a class attribute, so no
decoded object may contain a plain nested JSON object. -/
theorem json_roundtrip_nested_plain_dict_attribute_error :
    json_encode 3 (.entity "raiden.transfer.state.X" [("inner", .pdict [("a", .pnum 1)])])
      = .ok (.jobj [("inner", .jobj [("a", .jnum 1)]),
          ("_type", .jstr "raiden.transfer.state.X")])
    ∧ json_decode ⟨fun _ => true, fun _ => true⟩ 3
        (.jobj [("inner", .jobj [("a", .jnum 1)]),
          ("_type", .jstr "raiden.transfer.state.X")])
      = .error .attributeError :=
  ⟨rfl, rfl⟩

/-! ### Theorems: the generic Properties machinery (claims C2, C9, C5) -/

theorem shapeDepthO_head (os : Option PShape) (ss : List (Option PShape)) :
    shapeDepthO os ≤ shapeDepthL (os :: ss) := by
  cases os with
  | none => simp [shapeDepthO]
  | some s =>
    show shapeDepth s ≤ shapeDepthL (some s :: ss)
    simp [shapeDepthL]

theorem shapeDepthL_tail (os : Option PShape) (ss : List (Option PShape)) :
    shapeDepthL ss ≤ shapeDepthL (os :: ss) := by
  cases os with
  | none => simp [shapeDepthL]
  | some s => simp [shapeDepthL]

theorem specMerge_absorb : ∀ n, AbsorbStmtF n ∧ AbsorbStmtL n := by
  intro n
  induction n using Nat.strong_induction_on with
  | _ n ih =>
    have hF : AbsorbStmtF n := by
      intro os pf r hd hpf hc hr
      cases hpf with
      | empty => simp [completeF] at hc
      | noneV => rfl
      | gen => rfl
      | base m => rfl
      | blist l => rfl
      | props ss tag cd fs hcd hcdc hfs =>
        have hss : shapeDepthL ss < n := by
          simp only [shapeDepthO, shapeDepth] at hd; omega
        have hL := (ih (shapeDepthL ss) hss).2
        have hcfs : completeL fs = true := by simpa [completeF] using hc
        cases hr with
        | empty =>
          have habs := hL ss fs cd (le_refl _) hfs hcfs hcd
          simp [specMergeF, habs]
        | noneV =>
          have habs := hL ss fs cd (le_refl _) hfs hcfs hcd
          simp [specMergeF, habs]
        | props ss2 tag2 cd2 rfs hcd2 hcdc2 hrfs =>
          have habs := hL ss fs rfs (le_refl _) hfs hcfs hrfs
          simp [specMergeF, habs]
    have hLn : AbsorbStmtL n := by
      intro ss fs
      induction fs generalizing ss with
      | nil =>
        intro rfs hd hfs hc hrfs
        unfold InstOk at hfs hrfs
        cases hfs
        cases hrfs
        rfl
      | cons f fs0 ih2 =>
        intro rfs hd hfs hc hrfs
        unfold InstOk at hfs hrfs
        cases hfs with
        | cons hof htail =>
          cases hrfs with
          | cons hor hors =>
            simp only [completeL, Bool.and_eq_true] at hc
            have h1 := hF _ f _ (le_trans (shapeDepthO_head _ _) hd) hof hc.1 hor
            have h2 := ih2 _ _ (le_trans (shapeDepthL_tail _ _) hd) htail hc.2 hors
            simp [specMergeL, h1, h2]
    exact ⟨hF, hLn⟩

theorem exceptMap_ok {ε α β : Type} (f : α → β) (x : α) :
    (Except.map f (Except.ok x) : Except ε β) = Except.ok (f x) := rfl

theorem exceptBind_ok {ε α β : Type} (x : α) (f : α → Except ε β) :
    (Except.ok x >>= f) = f x := rfl

theorem create_properties_merge : ∀ n, MergeStmtF n ∧ MergeStmtL n := by
  intro n
  induction n using Nat.strong_induction_on with
  | _ n ih =>
    have hF : MergeStmtF n := by
      intro os pf df fuel hd hnf hpf hdf hc
      cases hpf with
      | empty => exact ⟨rfl, hc, hdf⟩
      | noneV => exact ⟨rfl, rfl, FieldOk.noneV os⟩
      | gen => exact ⟨rfl, rfl, FieldOk.gen⟩
      | base m => exact ⟨rfl, rfl, FieldOk.base m⟩
      | blist l => exact ⟨rfl, rfl, FieldOk.blist l⟩
      | props ss tag cd fs hcd hcdc hfs =>
        have hd2 : shapeDepthL ss + 1 ≤ n := by
          simpa [shapeDepthO, shapeDepth] using hd
        obtain ⟨f, rfl⟩ : ∃ f, fuel = f + 1 := ⟨fuel - 1, by omega⟩
        have hLlow := (ih (shapeDepthL ss) (by omega)).2
        have habsL := (specMerge_absorb (shapeDepthL ss)).2
        cases hdf with
        | empty => simp [completeF] at hc
        | noneV =>
          have hz := hLlow ss fs cd f (le_refl _) (by omega) hfs hcd hcdc
          refine ⟨?_, ?_, ?_⟩
          · show create_properties (f + 1) (.props tag cd fs) .noneV = _
            simp [create_properties, replacePW, hz.1, specMergeF, exceptMap_ok, exceptBind_ok]
          · simpa [specMergeF, completeF] using hz.2.1
          · simp only [specMergeF]
            exact FieldOk.props ss tag cd _ hcd hcdc hz.2.2
        | props ss2 tag2 cd2 dfs hcd2 hcdc2 hdfs =>
          have hcdfs : completeL dfs = true := by simpa [completeF] using hc
          have hz1 := hLlow ss dfs cd f (le_refl _) (by omega) hdfs hcd hcdc
          have habs : specMergeL dfs cd = dfs :=
            habsL ss dfs cd (le_refl _) hdfs hcdfs hcd
          have hz2 := hLlow ss fs dfs f (le_refl _) (by omega) hfs hdfs hcdfs
          refine ⟨?_, ?_, ?_⟩
          · show create_properties (f + 1) (.props tag cd fs) (.props tag2 cd2 dfs) = _
            simp [create_properties, replacePW, hz1.1, habs, hz2.1, specMergeF,
              exceptMap_ok, exceptBind_ok]
          · simpa [specMergeF, completeF] using hz2.2.1
          · simp only [specMergeF]
            exact FieldOk.props ss tag cd _ hcd hcdc hz2.2.2
    have hLn : MergeStmtL n := by
      intro ss fs
      induction fs generalizing ss with
      | nil =>
        intro dfs fuel hd hnf hfs hdfs hc
        unfold InstOk at hfs hdfs ⊢
        cases hfs
        cases hdfs
        exact ⟨rfl, rfl, List.Forall₂.nil⟩
      | cons f0 fs0 ih2 =>
        intro dfs fuel hd hnf hfs hdfs hc
        unfold InstOk at hfs hdfs ⊢
        cases hfs with
        | cons hof htail =>
          cases hdfs with
          | cons hod htaild =>
            simp only [completeL, Bool.and_eq_true] at hc
            have h1 := hF _ f0 _ fuel (le_trans (shapeDepthO_head _ _) hd) hnf hof hod hc.1
            have h2 := ih2 _ _ fuel (le_trans (shapeDepthL_tail _ _) hd) hnf htail htaild hc.2
            refine ⟨?_, ?_, ?_⟩
            · simp [zipMergeWith, h1.1, h2.1, specMergeL, exceptBind_ok]
            · simp [specMergeL, completeL, h1.2.1, h2.2.1]
            · simpa [specMergeL] using List.Forall₂.cons h1.2.2 h2.2.2
    exact ⟨hF, hLn⟩

/-- C2 (amended): for every Properties instance p and every optional defaults
instance d of the same Properties class (shape ss, with class-level DEFAULTS
cd), provided that DEFAULTS is itself a complete instance — true of every
DEFAULTS in the source except BalanceProofSignedStateProperties, whose
message_hash is left EMPTY (see the counterexample below) — create_properties
returns the fully-populated instance in which every field that p leaves EMPTY
is taken from d (or, where d also leaves it EMPTY, from the class-level
DEFAULTS), every field that p sets is kept, and nested Properties-valued
fields are merged recursively by the same rule (the recursive merge
specMergeL, phrased from the specification); the embedding is a pure
function, so p and d are not mutated. The second conjunct covers the
defaults=None case. -/
theorem create_properties_correct (ss : List (Option PShape)) (tag : Nat)
    (cd p d : List PField) (fuel : Nat)
    (hcd : InstOk ss cd) (hcdc : completeL cd = true)
    (hp : InstOk ss p) (hd : InstOk ss d)
    (hfuel : shapeDepthL ss + 1 ≤ fuel) :
    create_properties fuel (.props tag cd p) (.props tag cd d)
        = .ok (.props tag cd (specMergeL p (specMergeL d cd)))
    ∧ create_properties fuel (.props tag cd p) .noneV
        = .ok (.props tag cd (specMergeL p cd))
    ∧ completeL (specMergeL p (specMergeL d cd)) = true := by
  obtain ⟨f, rfl⟩ : ∃ f, fuel = f + 1 := ⟨fuel - 1, by omega⟩
  have hL := (create_properties_merge (shapeDepthL ss)).2
  have hz1 := hL ss d cd f (le_refl _) (by omega) hd hcd hcdc
  have hz2 := hL ss p (specMergeL d cd) f (le_refl _) (by omega) hp hz1.2.2 hz1.2.1
  have hz3 := hL ss p cd f (le_refl _) (by omega) hp hcd hcdc
  refine ⟨?_, ?_, hz2.2.1⟩
  · simp [create_properties, replacePW, hz1.1, hz2.1, exceptMap_ok, exceptBind_ok]
  · simp [create_properties, replacePW, hz3.1, exceptMap_ok, exceptBind_ok]

theorem create_properties_correct_witness :
    create_properties 5
        (.props 10 [.base 1, .props 20 [.base 2, .noneV] [.base 2, .noneV]]
          [.empty, .props 20 [.base 2, .noneV] [.empty, .base 5]])
        (.props 10 [.base 1, .props 20 [.base 2, .noneV] [.base 2, .noneV]]
          [.base 7, .empty])
      = .ok (.props 10 [.base 1, .props 20 [.base 2, .noneV] [.base 2, .noneV]]
          (specMergeL [.empty, .props 20 [.base 2, .noneV] [.empty, .base 5]]
            (specMergeL [.base 7, .empty]
              [.base 1, .props 20 [.base 2, .noneV] [.base 2, .noneV]])))
    ∧ create_properties 5
        (.props 10 [.base 1, .props 20 [.base 2, .noneV] [.base 2, .noneV]]
          [.empty, .props 20 [.base 2, .noneV] [.empty, .base 5]])
        .noneV
      = .ok (.props 10 [.base 1, .props 20 [.base 2, .noneV] [.base 2, .noneV]]
          (specMergeL [.empty, .props 20 [.base 2, .noneV] [.empty, .base 5]]
            [.base 1, .props 20 [.base 2, .noneV] [.base 2, .noneV]]))
    ∧ completeL
        (specMergeL [.empty, .props 20 [.base 2, .noneV] [.empty, .base 5]]
          (specMergeL [.base 7, .empty]
            [.base 1, .props 20 [.base 2, .noneV] [.base 2, .noneV]])) = true := by
  have hcdIn : List.Forall₂ FieldOk [none, none] [PField.base 2, PField.noneV] :=
    List.Forall₂.cons (FieldOk.base 2) (List.Forall₂.cons (FieldOk.noneV none) List.Forall₂.nil)
  refine create_properties_correct [none, some (.node [none, none])] 10
    [.base 1, .props 20 [.base 2, .noneV] [.base 2, .noneV]]
    [.empty, .props 20 [.base 2, .noneV] [.empty, .base 5]]
    [.base 7, .empty] 5
    ?_ (by decide) ?_ ?_ (by norm_num [shapeDepthL, shapeDepth])
  · exact List.Forall₂.cons (FieldOk.base 1)
      (List.Forall₂.cons (FieldOk.props _ 20 _ _ hcdIn (by decide) hcdIn) List.Forall₂.nil)
  · exact List.Forall₂.cons (FieldOk.empty none)
      (List.Forall₂.cons
        (FieldOk.props _ 20 _ _ hcdIn (by decide)
          (List.Forall₂.cons (FieldOk.empty none)
            (List.Forall₂.cons (FieldOk.base 5) List.Forall₂.nil)))
        List.Forall₂.nil)
  · exact List.Forall₂.cons (FieldOk.base 7)
      (List.Forall₂.cons (FieldOk.empty (some (.node [none, none]))) List.Forall₂.nil)

/-- C9: the generic create returns every non-Properties argument unchanged,
whatever the defaults argument: the singledispatch table only holds overloads
for Properties subclasses, so a non-Properties value reaches the generic body,
fails its isinstance check, and is returned as is. The five conjuncts cover
every non-Properties constructor of the value embedding. -/
theorem create_non_properties_identity (ext : ExtF) (fuel : Nat) (d : PField)
    (n : Nat) (l : List Nat) :
    createF ext (fuel + 1) .empty d = .ok (.raw .empty)
    ∧ createF ext (fuel + 1) .genV d = .ok (.raw .genV)
    ∧ createF ext (fuel + 1) .noneV d = .ok (.raw .noneV)
    ∧ createF ext (fuel + 1) (.base n) d = .ok (.raw (.base n))
    ∧ createF ext (fuel + 1) (.blist l) d = .ok (.raw (.blist l)) :=
  ⟨rfl, rfl, rfl, rfl, rfl⟩

/-- C5: the channel built by make_channel_state with every argument EMPTY and
the one built by create from NettingChannelStateProperties.DEFAULTS are open
channels: close_transaction and settle_transaction are None, open_transaction
carries the SUCCESS result (make_channel_state also sets finished block 10;
the DEFAULTS path leaves both block numbers None), and reveal_timeout 5 is
strictly below settle_timeout 50. -/
theorem default_channel_is_open (ext : ExtF) :
    (make_channel_state_default ext).close_transaction = none
    ∧ (make_channel_state_default ext).settle_transaction = none
    ∧ (make_channel_state_default ext).open_transaction
        = some ⟨none, some 10, some SUCCESS_CODE⟩
    ∧ (make_channel_state_default ext).reveal_timeout = UNIT_REVEAL_TIMEOUT
    ∧ (make_channel_state_default ext).settle_timeout = UNIT_SETTLE_TIMEOUT
    ∧ (make_channel_state_default ext).reveal_timeout
        < (make_channel_state_default ext).settle_timeout
    ∧ createF ext 10 (.props tagNCS (ncsCD ext) (ncsCD ext)) .noneV
        = .ok (.target tagNCS
          [.raw (.base ext.defaultCanonical), .raw (.base UNIT_TOKEN_ADDRESS_CODE),
           .raw (.base UNIT_PAYMENT_NETWORK_IDENTIFIER_CODE),
           .raw (.base UNIT_REVEAL_TIMEOUT), .raw (.base UNIT_SETTLE_TIMEOUT),
           .raw (.base 0),
           .target tagNCES [.raw (.base ext.makeAddress), .raw (.base 100), .raw .noneV],
           .target tagNCES [.raw (.base ext.makeAddress), .raw (.base 100), .raw .noneV],
           .target tagTES [.raw .noneV, .raw .noneV, .raw (.base SUCCESS_CODE)],
           .raw .noneV, .raw .noneV])
    ∧ UNIT_REVEAL_TIMEOUT < UNIT_SETTLE_TIMEOUT :=
  ⟨rfl, rfl, rfl, rfl, rfl, (by decide : UNIT_REVEAL_TIMEOUT < UNIT_SETTLE_TIMEOUT), rfl,
    by decide⟩

/-! ### Theorems: make_signed_transfer and make_signed_transfer_for
(claims C10, C4) -/

/-- C10: make_signed_transfer asserts locked_amount >= amount, locked_amount
defaulting to the resolved amount when left EMPTY (so the default never fails
the assert and the returned transfer has locked_amount equal to its lock
amount), and whenever locksroot resolves to EMPTY_MERKLE_ROOT (left EMPTY, or
passed as EMPTY_MERKLE_ROOT) the returned transfer commits to exactly its own
lock: its locksroot is sha3 of the single lock byte encoding. -/
theorem make_signed_transfer_assert_and_locksroot (ext : ExtF) (a : MSTArgs) :
    (∀ la am, a.locked_amount = some la → a.amount = some am → la < am →
        make_signed_transfer ext a = .error "assert locked_amount >= amount")
    ∧ (a.locked_amount = none → ∀ t, make_signed_transfer ext a = .ok t →
        t.locked_amount = t.lock_amount)
    ∧ ((a.locksroot = none ∨ a.locksroot = some EMPTY_MERKLE_ROOT_CODE) →
        ∀ t, make_signed_transfer ext a = .ok t →
          t.locksroot = ext.lockHash t.lock_amount t.lock_expiration t.lock_secrethash) := by
  refine ⟨?_, ?_, ?_⟩
  · intro la am hla ham hlt
    simp only [make_signed_transfer, hla, ham, Option.getD_some]
    rw [if_pos hlt]
  · intro hla t
    simp only [make_signed_transfer, hla, Option.getD_none]
    rw [if_neg (lt_irrefl _)]
    split
    · intro h
      simp only [Except.ok.injEq] at h
      subst h
      rfl
    · intro h
      exact Except.noConfusion h
  · intro hlr t
    have hEMR : a.locksroot.getD EMPTY_MERKLE_ROOT_CODE = EMPTY_MERKLE_ROOT_CODE := by
      rcases hlr with h | h <;> simp [h]
    simp only [make_signed_transfer, hEMR]
    split
    · intro h
      exact Except.noConfusion h
    · simp only [if_true]
      split
      · intro h
        simp only [Except.ok.injEq] at h
        subst h
        rfl
      · intro h
        exact Except.noConfusion h

theorem make_signed_transfer_assert_and_locksroot_witness :
    make_signed_transfer
        ⟨0, 0, 0, 0, 0, 0, fun _ => 0, 0, 0, fun _ _ _ => 0, fun n => n, fun n => n,
          fun _ _ _ => 7, fun _ _ _ _ _ _ => 0, fun _ => 0, fun n => n, fun n => n,
          fun n => n, fun _ => 0, fun _ _ => 0⟩
        { amount := some 10, locked_amount := some 3 }
      = .error "assert locked_amount >= amount" :=
  (make_signed_transfer_assert_and_locksroot _ _).1 3 10 rfl rfl (by decide)

theorem create_ltsp_ok_expiration (ext : ExtF) (tp props : LTSP) (e : Nat)
    (transfer : TransferM) (htp : tp.expiration = FF.empty)
    (hprops : props.expiration = FF.val e)
    (hok : create_ltsp ext tp (some props) = .ok transfer) :
    transfer.lock_expiration = e := by
  have hm : (create_properties_ltsp ext tp (some props)).expiration = FF.val e := by
    simp [create_properties_ltsp, mergeLTSP, htp, hprops, FF.orElse]
  simp only [create_ltsp] at hok
  split at hok
  · split at hok
    · simp only [Except.ok.injEq] at hok
      subst hok
      show (create_properties_ltsp ext tp (some props)).expiration.v = e
      rw [hm]
      rfl
    · exact Except.noConfusion hok
  · exact Except.noConfusion hok

/-- C4: with allow_invalid left False, make_signed_transfer_for fails with the
expiration assertion whenever the merged transfer expiration is not strictly
between the reveal and settle timeouts of the channel it is given (or of the
default channel when the channel is EMPTY), and every transfer it returns has
its lock expiration strictly inside that window. -/
theorem make_signed_transfer_for_expiration_window (ext : ExtF)
    (isValidLT : TransferM → NettingChannelStateM → Bool)
    (channel_state : Option NettingChannelStateM) (properties defaults : Option LTSP)
    (clr ot : Bool) :
    (∀ t, make_signed_transfer_for ext isValidLT channel_state properties defaults clr
          false ot = .ok t →
        (channel_state.getD (create_default_channel ext)).reveal_timeout < t.lock_expiration
        ∧ t.lock_expiration
            < (channel_state.getD (create_default_channel ext)).settle_timeout)
    ∧ (∀ e, (create_properties_ltsp ext (properties.getD LTSP.mkEmpty)
            (some (defaults.getD (SIGNED_TRANSFER_FOR_CHANNEL_DEFAULTS ext)))).expiration
          = .val e →
        ¬ ((channel_state.getD (create_default_channel ext)).reveal_timeout < e
            ∧ e < (channel_state.getD (create_default_channel ext)).settle_timeout) →
        make_signed_transfer_for ext isValidLT channel_state properties defaults clr
            false ot
          = .error "Expiration must be between reveal_timeout and settle_timeout.") := by
  constructor
  · intro t hok
    simp only [make_signed_transfer_for, Bool.false_eq_true, if_false] at hok
    split at hok
    · exact Except.noConfusion hok
    · rename_i u heqExp
      cases hexp : (create_properties_ltsp ext (properties.getD LTSP.mkEmpty)
          (some (defaults.getD (SIGNED_TRANSFER_FOR_CHANNEL_DEFAULTS ext)))).expiration with
      | empty => rw [hexp] at heqExp; exact Except.noConfusion heqExp
      | gen => rw [hexp] at heqExp; exact Except.noConfusion heqExp
      | val e =>
        rw [hexp] at heqExp
        have heqExp2 :
            (if (channel_state.getD (create_default_channel ext)).reveal_timeout < e
                ∧ e < (channel_state.getD (create_default_channel ext)).settle_timeout
              then (Except.ok () : Except String Unit)
              else Except.error
                "Expiration must be between reveal_timeout and settle_timeout.")
              = Except.ok u := heqExp
        have hw : (channel_state.getD (create_default_channel ext)).reveal_timeout < e
            ∧ e < (channel_state.getD (create_default_channel ext)).settle_timeout := by
          by_contra hnw
          rw [if_neg hnw] at heqExp2
          exact Except.noConfusion heqExp2
        split at hok
        case _ pk sd hpk hsd =>
          split at hok
          · split at hok
            · exact Except.noConfusion hok
            · split at hok
              · exact Except.noConfusion hok
              · rename_i transfer2 heq
                split at hok
                · simp only [Except.ok.injEq] at hok
                  subst hok
                  rw [create_ltsp_ok_expiration ext _ _ e _ (by cases ot <;> rfl) hexp heq]
                  exact hw
                · exact Except.noConfusion hok
          · exact Except.noConfusion hok
        case _ => exact Except.noConfusion hok
  · intro e hexp hw
    simp only [make_signed_transfer_for, hexp, Bool.false_eq_true, if_false]
    rw [if_neg hw]

theorem make_signed_transfer_for_expiration_window_witness :
    make_signed_transfer_for
        ⟨0, 0, 0, 0, 0, 0, fun _ => 0, 0, 0, fun _ _ _ => 0, fun n => n, fun n => n,
          fun _ _ _ => 7, fun _ _ _ _ _ _ => 0, fun _ => 0, fun n => n, fun n => n,
          fun n => n, fun _ => 0, fun _ _ => 0⟩
        (fun _ _ => true)
        (some ⟨0, 0, 0, 5, 50, 0, ⟨1, 100, 0⟩, ⟨2, 100, 0⟩, none, none, none⟩)
        (some { LTSP.mkEmpty with expiration := .val 60 }) none false false true
      = .error "Expiration must be between reveal_timeout and settle_timeout." :=
  (make_signed_transfer_for_expiration_window
      ⟨0, 0, 0, 0, 0, 0, fun _ => 0, 0, 0, fun _ _ _ => 0, fun n => n, fun n => n,
        fun _ _ _ => 7, fun _ _ _ _ _ _ => 0, fun _ => 0, fun n => n, fun n => n,
        fun n => n, fun _ => 0, fun _ _ => 0⟩
      (fun _ _ => true)
      (some ⟨0, 0, 0, 5, 50, 0, ⟨1, 100, 0⟩, ⟨2, 100, 0⟩, none, none, none⟩)
      (some { LTSP.mkEmpty with expiration := .val 60 }) none false true).2
    60 rfl (by decide)

/-- Counterexample to C2 as stated: for BalanceProofSignedStateProperties,
whose class-level DEFAULTS leaves message_hash EMPTY, create_properties
applied to the all-EMPTY instance (defaults omitted, and equally with the
DEFAULTS instance passed as defaults) returns an instance whose message_hash
field is still the EMPTY sentinel — not a fully-populated instance. -/
theorem create_properties_bps_not_fully_populated :
    create_properties 3
        (.props tagBPS
          (bpsCD ⟨0, 0, 0, 0, 0, 0, fun _ => 0, 0, 0, fun _ _ _ => 0, fun n => n,
            fun n => n, fun _ _ _ => 7, fun _ _ _ _ _ _ => 0, fun _ => 0, fun n => n,
            fun n => n, fun n => n, fun _ => 0, fun _ _ => 0⟩)
          (List.replicate 9 .empty))
        .noneV
      = .ok (.props tagBPS
          (bpsCD ⟨0, 0, 0, 0, 0, 0, fun _ => 0, 0, 0, fun _ _ _ => 0, fun n => n,
            fun n => n, fun _ _ _ => 7, fun _ _ _ _ _ _ => 0, fun _ => 0, fun n => n,
            fun n => n, fun n => n, fun _ => 0, fun _ _ => 0⟩)
          (bpsCD ⟨0, 0, 0, 0, 0, 0, fun _ => 0, 0, 0, fun _ _ _ => 0, fun n => n,
            fun n => n, fun _ _ _ => 7, fun _ _ _ _ _ _ => 0, fun _ => 0, fun n => n,
            fun n => n, fun n => n, fun _ => 0, fun _ _ => 0⟩))
    ∧ fget (bpsCD ⟨0, 0, 0, 0, 0, 0, fun _ => 0, 0, 0, fun _ _ _ => 0, fun n => n,
          fun n => n, fun _ _ _ => 7, fun _ _ _ _ _ _ => 0, fun _ => 0, fun n => n,
          fun n => n, fun n => n, fun _ => 0, fun _ _ => 0⟩) 5
        = .empty
    ∧ completeL (bpsCD ⟨0, 0, 0, 0, 0, 0, fun _ => 0, 0, 0, fun _ _ _ => 0, fun n => n,
          fun n => n, fun _ _ _ => 7, fun _ _ _ _ _ _ => 0, fun _ => 0, fun n => n,
          fun n => n, fun n => n, fun _ => 0, fun _ _ => 0⟩)
        = false :=
  ⟨rfl, rfl, rfl⟩
